import Mathlib

/-!
Verification of the deck scoring and candidate generation engine of the
clash-deck-maker repository.

The embedding translates the TypeScript sources
`apps/server/src/services/deckScoring.ts`,
`apps/server/src/services/deckCandidates.ts`,
`apps/server/src/data/loader.ts`, `apps/server/src/autofill.ts` and the
`POST /deck/optimize` route handler into Lean.

Modelling conventions:
- JavaScript numbers are modelled as exact rationals.  All arithmetic in
  the sources is addition, subtraction, multiplication, division,
  `Math.abs`, `Math.min`, `Math.max`, `Math.round(x*10)/10` and
  `Math.pow(_,2)`, which are exact on rationals.  The single exception is
  `Math.sqrt` in `calculateLevelFitScore`; square roots of rationals are
  irrational in general, so the embedding threads an arbitrary function
  `sq : Rat -> Rat` standing for the square-root routine.  Every theorem
  below holds for every choice of `sq`, hence in particular for the
  rounded IEEE-754 square root used at runtime.
- The card catalog `cards.json` is external data that is not part of the
  repository sources, so all definitions are parametrised by the loaded
  catalog, a `List Card` named `cat`.  The loader builds a JS `Map` from
  that list (later entries overwrite earlier ones), which is modelled by
  searching the reversed list.
- `Array.prototype.sort` with a numeric comparator is modelled by the
  stable `List.mergeSort` with the corresponding boolean relation, per
  the ES2019 stability requirement.
- `JS Set` objects are modelled as duplicate-free lists in insertion
  order; `Record<string, T>` objects whose keys are inserted at most once
  are modelled as association lists in insertion order.
-/

namespace ClashDeck

/-- Card role tags, the closed 10-value enumeration from the data model. -/
inductive CardRole where
  | win_condition
  | small_spell
  | big_spell
  | air_targeting
  | tank_killer
  | tank
  | swarm
  | anti_swarm
  | cycle
  | support
deriving DecidableEq, Repr

/-- Card rarity, the closed 5-value enumeration. -/
inductive CardRarity where
  | common
  | rare
  | epic
  | legendary
  | champion
deriving DecidableEq, Repr

/-- Card type (troop, spell or building). -/
inductive CardType where
  | troop
  | spell
  | building
deriving DecidableEq, Repr

/-- A catalog card, from the `Card` interface in `data/loader.ts`. -/
structure Card where
  id : String
  name : String
  elixir : Rat
  rarity : CardRarity
  type : CardType
  arena : Nat
  roles : List CardRole
deriving DecidableEq, Repr

/-- Player proficiency for one card, the `PlayerCardLevel` interface. -/
structure PlayerCardLevel where
  cardId : String
  level : Rat
deriving DecidableEq, Repr

/-- The four weights of a `ScoringConfig`. -/
structure Weights where
  coverage : Rat
  curve : Rat
  role : Rat
  levelFit : Rat
deriving DecidableEq, Repr

/-- Scoring configuration, the `ScoringConfig` interface. -/
structure ScoringConfig where
  targetElixir : Rat
  minElixir : Rat
  maxElixir : Rat
  weights : Weights
deriving DecidableEq, Repr

/-- The documented default configuration `DEFAULT_SCORING_CONFIG`. -/
def DEFAULT_SCORING_CONFIG : ScoringConfig :=
  { targetElixir := 3.5
    minElixir := 2.6
    maxElixir := 4.3
    weights := { coverage := 0.35, curve := 0.25, role := 0.25, levelFit := 0.15 } }

/-- Models `Math.round(x * 10) / 10`, rounding to one decimal.  JS
`Math.round` is floor of the argument plus one half. -/
def round1 (x : Rat) : Rat := ((⌊x * 10 + 1/2⌋ : Int) : Rat) / 10

/-! ## Card catalog read interface (`data/loader.ts`) -/

/-- Models `getCardById`: lookup in the `cardById` map.  The map is built
from the catalog list, so for repeated ids the last entry wins; searching
the reversed list reproduces this. -/
def getCardById (cat : List Card) (id : String) : Option Card :=
  cat.reverse.find? (fun c => c.id = id)

/-- Models `getCardsById`: resolve each id, silently dropping unknown ids. -/
def getCardsById (cat : List Card) (ids : List String) : List Card :=
  ids.filterMap (getCardById cat)

/-- Models `getAllCards` (a defensive copy of the catalog list). -/
def getAllCards (cat : List Card) : List Card := cat

/-- Models `getCardsByRole(role, cards)`: filter a card list by role tag. -/
def getCardsByRole (role : CardRole) (cards : List Card) : List Card :=
  cards.filter (fun c => c.roles.contains role)

/-- Models `getCardsUnlockedByArena`: the source iterates arena ids `i`
from `0` to `maxArenaId` and concatenates the per-arena buckets of the
`cardsByArena` map; each bucket holds the catalog cards of that arena in
catalog order. -/
def getCardsUnlockedByArena (cat : List Card) (maxArenaId : Nat) : List Card :=
  (List.range (maxArenaId + 1)).flatMap (fun i => cat.filter (fun c => c.arena = i))

/-- Models `calculateAverageElixir`: mean elixir of the resolvable ids
rounded to one decimal, `0` when none resolve. -/
def calculateAverageElixir (cat : List Card) (cardIds : List String) : Rat :=
  let cards := getCardsById cat cardIds
  if cards.length = 0 then 0
  else round1 ((cards.map (fun c => c.elixir)).sum / (cards.length : Rat))

/-! ## Deck scorer (`services/deckScoring.ts`) -/

/-- The fixed required-role list `REQUIRED_ROLES`. -/
def REQUIRED_ROLES : List CardRole :=
  [.win_condition, .small_spell, .big_spell, .air_targeting, .tank_killer]

/-- Helper for the repeated `cards.some((c) => c.roles.includes(r))` checks. -/
def hasRole (cards : List Card) (r : CardRole) : Bool :=
  cards.any (fun c => c.roles.contains r)

/-- The `CoverageScore` record. -/
structure CoverageScore where
  total : Rat
  hasWinCondition : Bool
  hasSmallSpell : Bool
  hasBigSpell : Bool
  hasAirTargeting : Bool
  hasTankKiller : Bool
  missingRoles : List CardRole
deriving DecidableEq, Repr

/-- Models `calculateCoverageScore`. -/
def calculateCoverageScore (cards : List Card) : CoverageScore :=
  let hw := hasRole cards .win_condition
  let hs := hasRole cards .small_spell
  let hb := hasRole cards .big_spell
  let ha := hasRole cards .air_targeting
  let ht := hasRole cards .tank_killer
  let missingRoles : List CardRole :=
    (if hw then [] else [.win_condition]) ++
    (if hs then [] else [.small_spell]) ++
    (if hb then [] else [.big_spell]) ++
    (if ha then [] else [.air_targeting]) ++
    (if ht then [] else [.tank_killer])
  let coveredCount : Rat := (REQUIRED_ROLES.length : Rat) - (missingRoles.length : Rat)
  { total := coveredCount / (REQUIRED_ROLES.length : Rat) * 100
    hasWinCondition := hw
    hasSmallSpell := hs
    hasBigSpell := hb
    hasAirTargeting := ha
    hasTankKiller := ht
    missingRoles := missingRoles }

/-- The `CurveScore` record. -/
structure CurveScore where
  total : Rat
  averageElixir : Rat
  isInRange : Bool
  distanceFromTarget : Rat
  cycleCardCount : Nat
  heavyCardCount : Nat
deriving DecidableEq, Repr

/-- Models `calculateCurveScore`. -/
def calculateCurveScore (cards : List Card) (config : ScoringConfig) : CurveScore :=
  if cards.length = 0 then
    { total := 0
      averageElixir := 0
      isInRange := false
      distanceFromTarget := config.targetElixir
      cycleCardCount := 0
      heavyCardCount := 0 }
  else
    let totalElixir := (cards.map (fun c => c.elixir)).sum
    let averageElixir := round1 (totalElixir / (cards.length : Rat))
    let isInRange : Bool := config.minElixir ≤ averageElixir ∧ averageElixir ≤ config.maxElixir
    let distanceFromTarget := |averageElixir - config.targetElixir|
    let cycleCardCount := (cards.filter (fun c => c.elixir ≤ 3)).length
    let heavyCardCount := (cards.filter (fun c => 6 ≤ c.elixir)).length
    let base : Rat := if isInRange then 60 else 30
    let distancePenalty := min (distanceFromTarget * 10) 20
    let cycleBonus : Rat :=
      if 2 ≤ cycleCardCount ∧ cycleCardCount ≤ 4 then 20
      else if cycleCardCount = 1 ∨ cycleCardCount = 5 then 10
      else 0
    let heavyPenalty : Rat := if 2 < heavyCardCount then ((heavyCardCount : Rat) - 2) * 5 else 0
    let total := base - distancePenalty + cycleBonus - heavyPenalty
    { total := max 0 (min 100 total)
      averageElixir := averageElixir
      isInRange := isInRange
      distanceFromTarget := distanceFromTarget
      cycleCardCount := cycleCardCount
      heavyCardCount := heavyCardCount }

/-- The `RoleScore` record.  The JS `Map<CardRole, number>` of role counts
is modelled as a counting function; its `size` (the number of distinct
roles present) is recovered as the length of the deduplicated role list. -/
structure RoleScore where
  total : Rat
  roleDistribution : CardRole → Nat
  versatilityScore : Rat
  synergyBonus : Rat

/-- Models `calculateRoleScore`. -/
def calculateRoleScore (cards : List Card) : RoleScore :=
  let allRoles := cards.flatMap (fun c => c.roles)
  let roleDistribution : CardRole → Nat := fun r => allRoles.count r
  let multiRoleCards := cards.filter (fun c => 1 < c.roles.length)
  let versatilityScore : Rat := ((multiRoleCards.length : Rat) / (max cards.length 1 : Nat)) * 30
  let synergyBonus : Rat :=
    (if hasRole cards .tank && hasRole cards .support then 10 else 0) +
    (if hasRole cards .swarm && hasRole cards .anti_swarm then 5 else 0) +
    (if hasRole cards .win_condition && hasRole cards .small_spell then 10 else 0)
  let uniqueRoleCount := allRoles.dedup.length
  let diversityScore : Rat := min ((uniqueRoleCount : Rat) * 5) 35
  { total := min 100 (diversityScore + versatilityScore + synergyBonus)
    roleDistribution := roleDistribution
    versatilityScore := versatilityScore
    synergyBonus := synergyBonus }

/-- The `LevelFitScore` record. -/
structure LevelFitScore where
  total : Rat
  averageLevel : Rat
  levelVariance : Rat
  underleveledCount : Nat
deriving DecidableEq, Repr

/-- Lookup in the `levelMap` built by `new Map(playerLevels.map(...))`;
for repeated card ids the last entry wins. -/
def levelLookup (playerLevels : List PlayerCardLevel) (id : String) : Option Rat :=
  (playerLevels.reverse.find? (fun p => p.cardId = id)).map (fun p => p.level)

/-- Models `calculateLevelFitScore`.  The parameter `sq` stands for
`Math.sqrt` (see the module comment).  The JS expression
`levelMap.get(card.id) || 1` yields `1` both for a missing entry and for a
stored level `0`. -/
def calculateLevelFitScore (sq : Rat → Rat) (cards : List Card)
    (playerLevels : Option (List PlayerCardLevel)) : LevelFitScore :=
  match playerLevels with
  | none => { total := 50, averageLevel := 0, levelVariance := 0, underleveledCount := 0 }
  | some pl =>
    if pl.length = 0 ∨ cards.length = 0 then
      { total := 50, averageLevel := 0, levelVariance := 0, underleveledCount := 0 }
    else
      let cardLevels := cards.map (fun c =>
        match levelLookup pl c.id with
        | none => 1
        | some v => if v = 0 then 1 else v)
      let underleveledCount := (cardLevels.filter (fun l => l < 11)).length
      let averageLevel := cardLevels.sum / (cardLevels.length : Rat)
      let variance := ((cardLevels.map (fun l => (l - averageLevel) ^ 2)).sum) / (cardLevels.length : Rat)
      let levelVariance := sq variance
      let levelScore := averageLevel / 14 * 50
      let varianceScore := max 0 (30 - levelVariance * 10)
      let underleveledPenalty := min ((underleveledCount : Rat) * 5) 20
      { total := max 0 (min 100 (levelScore + varianceScore - underleveledPenalty))
        averageLevel := round1 averageLevel
        levelVariance := round1 levelVariance
        underleveledCount := underleveledCount }

/-- The `DeckScore` record. -/
structure DeckScore where
  overall : Rat
  coverage : CoverageScore
  curve : CurveScore
  role : RoleScore
  levelFit : LevelFitScore

/-- Models `scoreDeck`, the main scoring function. -/
def scoreDeck (cat : List Card) (sq : Rat → Rat) (cardIds : List String)
    (playerLevels : Option (List PlayerCardLevel)) (config : ScoringConfig) : DeckScore :=
  let cards := getCardsById cat cardIds
  let coverage := calculateCoverageScore cards
  let curve := calculateCurveScore cards config
  let role := calculateRoleScore cards
  let levelFit := calculateLevelFitScore sq cards playerLevels
  let overall :=
    coverage.total * config.weights.coverage +
    curve.total * config.weights.curve +
    role.total * config.weights.role +
    levelFit.total * config.weights.levelFit
  { overall := round1 overall
    coverage := coverage
    curve := curve
    role := role
    levelFit := levelFit }

/-- The result record of `scoreCardAddition`. -/
structure CardAdditionScore where
  score : Rat
  improvesScore : Bool
  delta : Rat
deriving DecidableEq, Repr

/-- Models `scoreCardAddition`: score the deck with the candidate card
appended and report the change of the overall score. -/
def scoreCardAddition (cat : List Card) (sq : Rat → Rat) (currentDeckIds : List String)
    (candidateCard : Card) (playerLevels : Option (List PlayerCardLevel))
    (config : ScoringConfig) : CardAdditionScore :=
  let currentScore := scoreDeck cat sq currentDeckIds playerLevels config
  let newDeckIds := currentDeckIds ++ [candidateCard.id]
  let newScore := scoreDeck cat sq newDeckIds playerLevels config
  let delta := newScore.overall - currentScore.overall
  { score := newScore.overall, improvesScore := 0 < delta, delta := delta }

/-- Models `getMissingRoles` from `deckScoring.ts`. -/
def getMissingRoles (cat : List Card) (cardIds : List String) : List CardRole :=
  (calculateCoverageScore (getCardsById cat cardIds)).missingRoles

/-! ## Candidate generator and swap advisor (`services/deckCandidates.ts`) -/

/-- Display text of a role, as produced by `role.replace(mark, space)`
(JS `String.replace` with a string pattern replaces the first occurrence;
every role tag holds at most one underscore). -/
def roleName : CardRole → String
  | .win_condition => "win condition"
  | .small_spell => "small spell"
  | .big_spell => "big spell"
  | .air_targeting => "air targeting"
  | .tank_killer => "tank killer"
  | .tank => "tank"
  | .swarm => "swarm"
  | .anti_swarm => "anti swarm"
  | .cycle => "cycle"
  | .support => "support"

/-- Decimal rendering of a nonnegative multiple of one tenth, matching
the JS `Number` to string conversion on such values (`3` prints as "3",
`2.6` prints as "2.6").  Only applied to outputs of `round1`. -/
def fmtTenth (q : Rat) : String :=
  let k : Nat := (⌊q * 10⌋).toNat
  if k % 10 = 0 then toString (k / 10)
  else toString (k / 10) ++ "." ++ toString (k % 10)

/-- Rendering of `x.toFixed(1)` for a nonnegative multiple of one tenth
(always shows exactly one decimal digit). -/
def fmtFixed1 (q : Rat) : String :=
  let k : Nat := (⌊q * 10⌋).toNat
  toString (k / 10) ++ "." ++ toString (k % 10)

/-- The `rarityScores` table of `scoreCardForRole` (commons are easier to
level). -/
def rarityScore : CardRarity → Rat
  | .common => 3
  | .rare => 2
  | .epic => 1
  | .legendary => 0
  | .champion => 0

/-- Models `scoreCardForRole`: multi-factor heuristic score of a candidate
card for a given role. -/
def scoreCardForRole (cat : List Card) (sq : Rat → Rat) (card : Card) (role : CardRole)
    (currentDeck : List String) (playerLevels : Option (List PlayerCardLevel))
    (config : ScoringConfig) : Rat :=
  let delta := (scoreCardAddition cat sq currentDeck card playerLevels config).delta
  let levelBonus : Rat :=
    match playerLevels with
    | none => 0
    | some pl =>
      match pl.find? (fun p => p.cardId = card.id) with
      | some p => p.level
      | none => 0
  let versatilityBonus := ((card.roles.length : Rat) - 1) * 2
  let rarityBonus := rarityScore card.rarity
  let elixirBonus : Rat :=
    if role = .cycle ∨ role = .small_spell then max 0 (4 - card.elixir)
    else if role = .win_condition ∨ role = .tank then (if 3 < card.elixir then 2 else 0)
    else 0
  delta * 2 + levelBonus + versatilityBonus + rarityBonus + elixirBonus

/-- A `(card, score)` pair of the ranked candidate lists. -/
structure RankedCard where
  card : Card
  score : Rat
deriving DecidableEq, Repr

/-- Models `getRankedCardsForRole`: candidates with the role that are not
in the current deck, scored, sorted descending (stable) and truncated. -/
def getRankedCardsForRole (cat : List Card) (sq : Rat → Rat) (role : CardRole)
    (availableCards : List Card) (currentDeck : List String)
    (playerLevels : Option (List PlayerCardLevel)) (config : ScoringConfig)
    (limit : Nat) : List RankedCard :=
  let candidates := (getCardsByRole role availableCards).filter
    (fun c => ¬ currentDeck.contains c.id)
  let scored := candidates.map (fun card =>
    RankedCard.mk card (scoreCardForRole cat sq card role currentDeck playerLevels config))
  (scored.mergeSort (fun a b => decide (b.score ≤ a.score))).take limit

/-- The result shape of `selectBestCard`. -/
structure Selection where
  card : Card
  role : CardRole
  alternatives : List RankedCard
deriving DecidableEq, Repr

/-- The missing-role branch of `selectBestCard`: rank for the first
missing role and take the top result with the next 3 as alternatives
(the early `return` inside `if (missingRoles.length > 0)`). -/
def selectFromMissing (cat : List Card) (sq : Rat → Rat) (availableCards : List Card)
    (currentDeck : List String) (missingRoles : List CardRole)
    (playerLevels : Option (List PlayerCardLevel)) (config : ScoringConfig) :
    Option Selection :=
  match missingRoles with
  | [] => none
  | role :: _ =>
    match getRankedCardsForRole cat sq role availableCards currentDeck playerLevels config 10 with
    | [] => none
    | top :: rest => some { card := top.card, role := role, alternatives := rest.take 3 }

/-- The elixir-based role-preference list of `selectBestCard`. -/
def preferredRolesFor (cat : List Card) (currentDeck : List String)
    (config : ScoringConfig) : List CardRole :=
  let currentCards := getCardsById cat currentDeck
  let avgElixir : Rat :=
    if 0 < currentCards.length then
      (currentCards.map (fun c => c.elixir)).sum / (currentCards.length : Rat)
    else config.targetElixir
  if config.targetElixir + 0.3 < avgElixir then [.cycle, .swarm, .support]
  else if avgElixir < config.targetElixir - 0.3 then [.support, .tank, .anti_swarm]
  else [.support, .cycle, .swarm]

/-- The preferred-role loop of `selectBestCard`: the first preferred role
with any eligible candidate wins. -/
def selectFromPreferred (cat : List Card) (sq : Rat → Rat) (availableCards : List Card)
    (currentDeck : List String) (playerLevels : Option (List PlayerCardLevel))
    (config : ScoringConfig) : Option Selection :=
  (preferredRolesFor cat currentDeck config).findSome? (fun role =>
    match getRankedCardsForRole cat sq role availableCards currentDeck playerLevels config 10 with
    | [] => none
    | top :: rest => some { card := top.card, role := role, alternatives := rest.take 3 })

/-- The final fallback of `selectBestCard`: the first remaining catalog
card, tagged with its own first role (or support when it has none). -/
def selectFallback (availableCards : List Card) (currentDeck : List String) :
    Option Selection :=
  match availableCards.filter (fun c => ¬ currentDeck.contains c.id) with
  | [] => none
  | first :: _ =>
    some { card := first, role := first.roles.headD .support, alternatives := [] }

/-- Models `selectBestCard`: fill a slot by prioritising the first missing
required role; otherwise pick a role-preference list from the current
average elixir; otherwise fall back to the first remaining catalog card. -/
def selectBestCard (cat : List Card) (sq : Rat → Rat) (availableCards : List Card)
    (currentDeck : List String) (missingRoles : List CardRole)
    (playerLevels : Option (List PlayerCardLevel)) (config : ScoringConfig) :
    Option Selection :=
  (selectFromMissing cat sq availableCards currentDeck missingRoles playerLevels config).orElse
    (fun _ =>
      (selectFromPreferred cat sq availableCards currentDeck playerLevels config).orElse
        (fun _ => selectFallback availableCards currentDeck))

/-- An alternative card suggestion attached to an added card. -/
structure AlternativeCard where
  cardId : String
  cardName : String
  reason : String
  scoreDelta : Rat
deriving DecidableEq, Repr

/-- Provenance record for a card added by the candidate generator. -/
structure AddedCardInfo where
  cardId : String
  cardName : String
  reason : String
  role : CardRole
  elixir : Rat
  alternatives : List AlternativeCard
deriving DecidableEq, Repr

/-- A candidate deck with its score and provenance. -/
structure DeckCandidate where
  cards : List String
  score : DeckScore
  addedCards : List AddedCardInfo

/-- The `AddedCardInfo` record built for a selection inside
`generateSingleCompletion` (the JS expression
`alt.score - (selection.alternatives[0]?.score || 0)` equals the score of
the first alternative when one exists, else `0`). -/
def mkAddedCardInfo (sel : Selection) : AddedCardInfo :=
  { cardId := sel.card.id
    cardName := sel.card.name
    reason := "Added as " ++ roleName sel.role
    role := sel.role
    elixir := sel.card.elixir
    alternatives := sel.alternatives.map (fun alt =>
      { cardId := alt.card.id
        cardName := alt.card.name
        reason := "Alternative " ++ roleName sel.role ++ " option"
        scoreDelta := alt.score - ((sel.alternatives.head?.map (fun a => a.score)).getD 0) }) }

/-- The `while (deck.length < 8)` loop of `generateSingleCompletion`. -/
def completionLoop (cat : List Card) (sq : Rat → Rat) (filteredAvailable : List Card)
    (playerLevels : Option (List PlayerCardLevel)) (config : ScoringConfig)
    (deck : List String) (added : List AddedCardInfo) :
    List String × List AddedCardInfo :=
  if _h : deck.length < 8 then
    match selectBestCard cat sq filteredAvailable deck (getMissingRoles cat deck) playerLevels config with
    | none => (deck, added)
    | some sel =>
      completionLoop cat sq filteredAvailable playerLevels config
        (deck ++ [sel.card.id]) (added ++ [mkAddedCardInfo sel])
  else (deck, added)
termination_by 8 - deck.length
decreasing_by simp; omega

/-- Models `generateSingleCompletion`: greedily grow the starting cards to
exactly 8; `none` when the pool is exhausted before reaching 8. -/
def generateSingleCompletion (cat : List Card) (sq : Rat → Rat) (startingCards : List String)
    (availableCards : List Card) (playerLevels : Option (List PlayerCardLevel))
    (config : ScoringConfig) (excludeCards : List String) : Option DeckCandidate :=
  let filteredAvailable := availableCards.filter (fun c => ¬ excludeCards.contains c.id)
  let r := completionLoop cat sq filteredAvailable playerLevels config startingCards []
  if r.1.length ≠ 8 then none
  else some { cards := r.1, score := scoreDeck cat sq r.1 playerLevels config, addedCards := r.2 }

/-- Generation options; all fields of the JS `Partial` options object. -/
structure CandidateGenerationOptions where
  maxCandidates : Option Nat
  playerLevels : Option (List PlayerCardLevel)
  preferredArena : Option Nat
  scoringConfig : Option ScoringConfig
  diversityWeight : Option Rat

/-- Options object with no field set. -/
def noOptions : CandidateGenerationOptions :=
  { maxCandidates := none, playerLevels := none, preferredArena := none
    scoringConfig := none, diversityWeight := none }

/-- JS `Set.prototype.add`: append the element unless already present. -/
def insertUnique (s : List String) (x : String) : List String :=
  if s.contains x then s else s ++ [x]

/-- Mutable state of the diversity loop of `generateDeckCandidates`. -/
structure GenState where
  candidates : List DeckCandidate
  usedFirstCards : List String

/-- One-run exclusion set of the diversity loop: the first
`min(candidates.length, 3)` added cards of the first accepted candidate,
then every recorded first added card. -/
def genExcludeCards (st : GenState) : List String :=
  let fromBest : List String :=
    match st.candidates with
    | [] => []
    | best :: _ => (best.addedCards.take (min st.candidates.length 3)).map (fun c => c.cardId)
  (fromBest ++ st.usedFirstCards).foldl insertUnique []

/-- The body of one iteration of the `while (candidates.length <
maxCandidates)` loop: attempt a completion under the exclusion set and
accept it when it differs from every accepted candidate in at least 2 of
8 cards. -/
def genStep (cat : List Card) (sq : Rat → Rat) (startingCards : List String)
    (availableCards : List Card) (playerLevels : Option (List PlayerCardLevel))
    (config : ScoringConfig) (st : GenState) : GenState :=
  let excludeCards := genExcludeCards st
  match generateSingleCompletion cat sq startingCards availableCards playerLevels config excludeCards with
  | none => st
  | some candidate =>
    let isDifferent := st.candidates.all (fun existing =>
      (candidate.cards.filter (fun c => existing.cards.contains c)).length < 7)
    if isDifferent then
      { candidates := st.candidates ++ [candidate]
        usedFirstCards :=
          match candidate.addedCards with
          | [] => st.usedFirstCards
          | a :: _ => insertUnique st.usedFirstCards a.cardId }
    else st

/-- The diversity loop, run on explicit fuel.  The JS loop is
deterministic: an iteration that accepts no candidate leaves the whole
state unchanged, so unless its final guard (`excludeCards.size >
availableCards.length * 0.5`) fires in that very iteration the loop
repeats the identical iteration forever.  At most `maxCandidates`
iterations can accept, hence the loop either exits within
`maxCandidates + 1` iterations or never terminates; `none` reports the
latter. -/
def genLoop (cat : List Card) (sq : Rat → Rat) (startingCards : List String)
    (availableCards : List Card) (playerLevels : Option (List PlayerCardLevel))
    (config : ScoringConfig) (maxCandidates : Nat) :
    Nat → GenState → Option (List DeckCandidate)
  | 0, _ => none
  | fuel + 1, st =>
    if st.candidates.length < maxCandidates then
      let st' := genStep cat sq startingCards availableCards playerLevels config st
      if ((genExcludeCards st).length : Rat) > (availableCards.length : Rat) * 0.5 then
        some st'.candidates
      else
        genLoop cat sq startingCards availableCards playerLevels config maxCandidates fuel st'
    else some st.candidates

/-- Models `generateDeckCandidates`.  The result is `none` exactly when
the JS loop never terminates (see `genLoop`); otherwise the accepted
candidates sorted by overall score descending and truncated. -/
def generateDeckCandidates (cat : List Card) (sq : Rat → Rat) (startingCards : List String)
    (options : CandidateGenerationOptions) : Option (List DeckCandidate) :=
  let config := options.scoringConfig.getD DEFAULT_SCORING_CONFIG
  let maxCandidates := options.maxCandidates.getD 5
  let availableCards :=
    match options.preferredArena with
    | some a => getCardsUnlockedByArena cat a
    | none => getAllCards cat
  let primary := generateSingleCompletion cat sq startingCards availableCards
    options.playerLevels config []
  let st0 : GenState :=
    match primary with
    | none => { candidates := [], usedFirstCards := [] }
    | some p =>
      { candidates := [p]
        usedFirstCards :=
          match p.addedCards with
          | [] => []
          | a :: _ => [a.cardId] }
  match genLoop cat sq startingCards availableCards options.playerLevels config
      maxCandidates (maxCandidates + 1) st0 with
  | none => none
  | some cands =>
    some ((cands.mergeSort (fun a b => decide (b.score.overall ≤ a.score.overall))).take maxCandidates)

/-- Models `getBestDeckCompletion`: the first candidate of a
`maxCandidates = 1` generation, or `null`. -/
def getBestDeckCompletion (cat : List Card) (sq : Rat → Rat) (startingCards : List String)
    (options : CandidateGenerationOptions) : Option DeckCandidate :=
  match generateDeckCandidates cat sq startingCards { options with maxCandidates := some 1 } with
  | none => none
  | some cands => cands.head?

/-- One swap suggestion of `suggestCardSwaps`. -/
structure SwapSuggestion where
  removeCard : String
  addCard : String
  scoreBefore : Rat
  scoreAfter : Rat
  improvement : Rat
  reason : String
deriving DecidableEq, Repr

/-- The `suggestions` array of `suggestCardSwaps` before sorting: for
each deck card in deck order, the first 5 role-compatible replacements
from the pool whose swap improves the overall score by more than 1. -/
def suggestCardSwapsRaw (cat : List Card) (sq : Rat → Rat) (deck : List String)
    (options : CandidateGenerationOptions) : List SwapSuggestion :=
  let config := options.scoringConfig.getD DEFAULT_SCORING_CONFIG
  let availableCards :=
    match options.preferredArena with
    | some a => getCardsUnlockedByArena cat a
    | none => getAllCards cat
  let currentScore := scoreDeck cat sq deck options.playerLevels config
  let deckCards := getCardsById cat deck
  deckCards.flatMap (fun cardToRemove =>
    let deckWithoutCard := deck.filter (fun id => id ≠ cardToRemove.id)
    let candidates := availableCards.filter (fun c =>
      ¬ deck.contains c.id ∧ c.roles.any (fun r => cardToRemove.roles.contains r))
    (candidates.take 5).filterMap (fun replacement =>
      let newDeck := deckWithoutCard ++ [replacement.id]
      let newScore := scoreDeck cat sq newDeck options.playerLevels config
      let improvement := newScore.overall - currentScore.overall
      if 1 < improvement then
        some { removeCard := cardToRemove.id
               addCard := replacement.id
               scoreBefore := currentScore.overall
               scoreAfter := newScore.overall
               improvement := improvement
               reason := "Swap " ++ cardToRemove.name ++ " for " ++ replacement.name ++
                 " (+" ++ fmtFixed1 improvement ++ " score)" }
      else none))

/-- Models `suggestCardSwaps`: the accepted suggestions sorted by
improvement descending, truncated to the top 5. -/
def suggestCardSwaps (cat : List Card) (sq : Rat → Rat) (deck : List String)
    (options : CandidateGenerationOptions) : List SwapSuggestion :=
  ((suggestCardSwapsRaw cat sq deck options).mergeSort
    (fun a b => decide (b.improvement ≤ a.improvement))).take 5

/-! ## Autofill (`autofill.ts`) -/

namespace Autofill

/-- The module constants of `autofill.ts`. -/
def MIN_AVG_ELIXIR : Rat := 2.6

/-- Upper bound of the recommended average elixir range. -/
def MAX_AVG_ELIXIR : Rat := 4.3

/-- Default target average elixir. -/
def TARGET_AVG_ELIXIR : Rat := 3.5

/-- The `AutofillRequest` interface. -/
structure AutofillRequest where
  currentCards : List String
  playerCardLevels : Option (List PlayerCardLevel)
  preferredArena : Option Nat
  targetElixir : Option Rat

/-- The `AutofillExplanation` interface. -/
structure AutofillExplanation where
  cardId : String
  reason : String
  role : CardRole
deriving DecidableEq, Repr

/-- The `AlternativeSuggestion` interface. -/
structure AlternativeSuggestion where
  cardId : String
  reason : String
deriving DecidableEq, Repr

/-- The `AutofillResponse` interface; the `alternatives` record object is
modelled as an association list in key insertion order (keys are the ids
of the added cards, inserted at most once each). -/
structure AutofillResponse where
  deck : List String
  explanations : List AutofillExplanation
  alternatives : List (String × List AlternativeSuggestion)
  averageElixir : Rat
deriving DecidableEq, Repr

/-- The `DeckRequirements` record. -/
structure DeckRequirements where
  hasWinCondition : Bool
  hasSmallSpell : Bool
  hasBigSpell : Bool
  hasAirTargeting : Bool
  hasTankKiller : Bool
deriving DecidableEq, Repr

/-- Models `analyzeDeck`. -/
def analyzeDeck (cat : List Card) (cardIds : List String) : DeckRequirements :=
  let cards := getCardsById cat cardIds
  { hasWinCondition := hasRole cards .win_condition
    hasSmallSpell := hasRole cards .small_spell
    hasBigSpell := hasRole cards .big_spell
    hasAirTargeting := hasRole cards .air_targeting
    hasTankKiller := hasRole cards .tank_killer }

/-- Models the `getMissingRoles` of `autofill.ts` (it takes the analysed
requirements, unlike its namesake in `deckScoring.ts`). -/
def getMissingRoles (requirements : DeckRequirements) : List CardRole :=
  (if requirements.hasWinCondition then [] else [CardRole.win_condition]) ++
  (if requirements.hasSmallSpell then [] else [CardRole.small_spell]) ++
  (if requirements.hasBigSpell then [] else [CardRole.big_spell]) ++
  (if requirements.hasAirTargeting then [] else [CardRole.air_targeting]) ++
  (if requirements.hasTankKiller then [] else [CardRole.tank_killer])

/-- Models `getCardLevelScore`. -/
def getCardLevelScore (card : Card) (playerLevels : Option (List PlayerCardLevel)) : Rat :=
  match playerLevels with
  | none => 0
  | some pl =>
    match pl.find? (fun p => p.cardId = card.id) with
    | some p => p.level
    | none => 0

/-- Models `getElixirImpact`: change of distance to the target elixir when
adding a card (positive means moving toward the target). -/
def getElixirImpact (cat : List Card) (currentCards : List String) (newCard : Card)
    (targetElixir : Rat) : Rat :=
  let currentElixir := calculateAverageElixir cat currentCards
  let newTotal :=
    if 0 < currentCards.length then
      (currentElixir * (currentCards.length : Rat) + newCard.elixir) / ((currentCards.length : Rat) + 1)
    else newCard.elixir
  |currentElixir - targetElixir| - |newTotal - targetElixir|

/-- The rarity table of the autofill scorer. -/
def autofillRarityScore : CardRarity → Rat
  | .common => 2
  | .rare => 1.5
  | .epic => 1
  | .legendary => 0.5
  | .champion => 0.5

/-- Models `selectBestCardForRole`: pick the best-scoring candidate with
the role, returning up to 2 alternatives. -/
def selectBestCardForRole (cat : List Card) (role : CardRole) (availableCards : List Card)
    (currentDeck : List String) (playerLevels : Option (List PlayerCardLevel))
    (targetElixir : Rat) : Option (Card × List Card) :=
  let candidates := (getCardsByRole role availableCards).filter
    (fun c => ¬ currentDeck.contains c.id)
  if candidates.length = 0 then none
  else
    let scored := candidates.map (fun card =>
      RankedCard.mk card
        (getCardLevelScore card playerLevels +
         getElixirImpact cat currentDeck card targetElixir * 2 +
         ((card.roles.length : Rat) - 1) * 0.5 +
         autofillRarityScore card.rarity))
    match scored.mergeSort (fun a b => decide (b.score ≤ a.score)) with
    | [] => none
    | best :: rest => some (best.card, (rest.take 2).map (fun s => s.card))

/-- Result accumulator of `fillRemainingSlots`. -/
structure FillResult where
  cards : List Card
  explanations : List AutofillExplanation
  alternatives : List (String × List AlternativeSuggestion)
deriving DecidableEq, Repr

/-- The explanation string of a filler card. -/
def fillReason (card : Card) (role : CardRole) : String :=
  "Added " ++ card.name ++ " for " ++ roleName role ++ " (" ++ fmtTenth card.elixir ++ " elixir)"

/-- The alternative suggestion string of a filler card. -/
def fillAltReason (alt : Card) (role : CardRole) : String :=
  alt.name ++ " could also fulfill " ++ roleName role ++ " role"

/-- The `for (let i = 0; i < slotsToFill; i++)` loop of
`fillRemainingSlots`; an iteration in which nothing is selectable leaves
the working deck unchanged. -/
def fillLoop (cat : List Card) (availableCards : List Card)
    (playerLevels : Option (List PlayerCardLevel)) (targetElixir : Rat) :
    Nat → List String → FillResult → FillResult
  | 0, _, acc => acc
  | n + 1, workingDeck, acc =>
    let currentAvgElixir := calculateAverageElixir cat workingDeck
    let preferredRoles : List CardRole :=
      if targetElixir + 0.3 < currentAvgElixir then [.cycle, .swarm, .support]
      else if currentAvgElixir < targetElixir - 0.3 then [.support, .tank, .anti_swarm]
      else [.support, .cycle, .swarm]
    let fromPreferred : Option ((Card × List Card) × CardRole) :=
      preferredRoles.findSome? (fun role =>
        (selectBestCardForRole cat role availableCards workingDeck playerLevels targetElixir).map
          (fun p => (p, role)))
    let selected : Option ((Card × List Card) × CardRole) :=
      match fromPreferred with
      | some x => some x
      | none =>
        match availableCards.filter (fun c => ¬ workingDeck.contains c.id) with
        | [] => none
        | first :: rest => some ((first, rest.take 2), first.roles.headD .support)
    match selected with
    | none => fillLoop cat availableCards playerLevels targetElixir n workingDeck acc
    | some ((card, alts), role) =>
      fillLoop cat availableCards playerLevels targetElixir n (workingDeck ++ [card.id])
        { cards := acc.cards ++ [card]
          explanations := acc.explanations ++
            [{ cardId := card.id, reason := fillReason card role, role := role }]
          alternatives := acc.alternatives ++
            [(card.id, alts.map (fun alt => AlternativeSuggestion.mk alt.id (fillAltReason alt role)))] }

/-- Models `fillRemainingSlots`. -/
def fillRemainingSlots (cat : List Card) (currentDeck : List String)
    (availableCards : List Card) (playerLevels : Option (List PlayerCardLevel))
    (targetElixir : Rat) : FillResult :=
  fillLoop cat availableCards playerLevels targetElixir (8 - currentDeck.length) currentDeck
    { cards := [], explanations := [], alternatives := [] }

/-- The explanation string of a required-role card. -/
def roleReason (card : Card) (role : CardRole) : String :=
  "Added " ++ card.name ++ " as " ++ roleName role ++ " (" ++ fmtTenth card.elixir ++ " elixir)"

/-- The alternative suggestion string of a required-role card. -/
def roleAltReason (alt : Card) (role : CardRole) : String :=
  alt.name ++ " is another good " ++ roleName role ++ " option"

/-- Accumulator of the role-filling phase of `autofillDeck`. -/
structure RolePhase where
  workingDeck : List String
  explanations : List AutofillExplanation
  alternatives : List (String × List AlternativeSuggestion)

/-- One iteration of the `for (const role of missingRoles)` loop of
`autofillDeck`; once the working deck holds 8 ids every remaining
iteration is skipped (the JS loop breaks). -/
def rolePhaseStep (cat : List Card) (availableCards : List Card)
    (playerLevels : Option (List PlayerCardLevel)) (targetElixir : Rat)
    (acc : RolePhase) (role : CardRole) : RolePhase :=
  if 8 ≤ acc.workingDeck.length then acc
  else
    match selectBestCardForRole cat role availableCards acc.workingDeck playerLevels targetElixir with
    | none => acc
    | some (card, alts) =>
      { workingDeck := acc.workingDeck ++ [card.id]
        explanations := acc.explanations ++
          [{ cardId := card.id, reason := roleReason card role, role := role }]
        alternatives := acc.alternatives ++
          [(card.id, alts.map (fun alt => AlternativeSuggestion.mk alt.id (roleAltReason alt role)))] }

/-- Models `autofillDeck`, the main autofill entry point. -/
def autofillDeck (cat : List Card) (request : AutofillRequest) : AutofillResponse :=
  let targetElixir := request.targetElixir.getD TARGET_AVG_ELIXIR
  if 8 ≤ request.currentCards.length then
    { deck := request.currentCards.take 8
      explanations := []
      alternatives := []
      averageElixir := calculateAverageElixir cat (request.currentCards.take 8) }
  else
    let availableCards :=
      match request.preferredArena with
      | some a => getCardsUnlockedByArena cat a
      | none => getAllCards cat
    let requirements := analyzeDeck cat request.currentCards
    let missingRoles := getMissingRoles requirements
    let phase1 := missingRoles.foldl
      (rolePhaseStep cat availableCards request.playerCardLevels targetElixir)
      { workingDeck := request.currentCards, explanations := [], alternatives := [] }
    let final : RolePhase :=
      if phase1.workingDeck.length < 8 then
        let remainingResult := fillRemainingSlots cat phase1.workingDeck availableCards
          request.playerCardLevels targetElixir
        { workingDeck := phase1.workingDeck ++ remainingResult.cards.map (fun c => c.id)
          explanations := phase1.explanations ++ remainingResult.explanations
          alternatives := phase1.alternatives ++ remainingResult.alternatives }
      else phase1
    { deck := final.workingDeck
      explanations := final.explanations
      alternatives := final.alternatives
      averageElixir := calculateAverageElixir cat final.workingDeck }

/-- Result record of `validateDeck`. -/
structure ValidateResult where
  isValid : Bool
  issues : List String
deriving DecidableEq, Repr

/-- The wrong-cardinality issue string. -/
def countIssue (n : Nat) : String :=
  "Deck has " ++ toString n ++ " cards, needs exactly 8"

/-- The per-role issue strings of `validateDeck`. -/
def roleIssue : CardRole → String
  | .win_condition => "Deck lacks a win condition"
  | .small_spell => "Deck lacks a small spell"
  | .big_spell => "Deck lacks a big spell"
  | .air_targeting => "Deck lacks air-targeting units"
  | .tank_killer => "Deck lacks a tank killer"
  | _ => ""

/-- The too-low average elixir issue string. -/
def lowElixirIssue (avg : Rat) : String :=
  "Average elixir (" ++ fmtTenth avg ++ ") is too low (min: 2.6)"

/-- The too-high average elixir issue string. -/
def highElixirIssue (avg : Rat) : String :=
  "Average elixir (" ++ fmtTenth avg ++ ") is too high (max: 4.3)"

/-- Models `validateDeck`. -/
def validateDeck (cat : List Card) (cardIds : List String) : ValidateResult :=
  let requirements := analyzeDeck cat cardIds
  let avgElixir := calculateAverageElixir cat cardIds
  let issues : List String :=
    (if cardIds.length ≠ 8 then [countIssue cardIds.length] else []) ++
    (if requirements.hasWinCondition then [] else [roleIssue .win_condition]) ++
    (if requirements.hasSmallSpell then [] else [roleIssue .small_spell]) ++
    (if requirements.hasBigSpell then [] else [roleIssue .big_spell]) ++
    (if requirements.hasAirTargeting then [] else [roleIssue .air_targeting]) ++
    (if requirements.hasTankKiller then [] else [roleIssue .tank_killer]) ++
    (if avgElixir < MIN_AVG_ELIXIR then [lowElixirIssue avgElixir] else []) ++
    (if MAX_AVG_ELIXIR < avgElixir then [highElixirIssue avgElixir] else [])
  { isValid := issues.isEmpty, issues := issues }

end Autofill

/-! ## The optimize route handler (`POST /deck/optimize`, server index) -/

namespace Server

/-- One entry of the `swapPlan` array built by the optimize handler. -/
structure SwapPlanEntry where
  removeCardId : String
  removeCardName : String
  addCardId : String
  addCardName : String
  reason : String
  scoreDelta : Rat
deriving DecidableEq, Repr

/-- One application step of the `for (const swap of swapsToApply)` loop:
replace the removed id in place by the added id (JS `indexOf` plus index
assignment), skipping the swap when the removed id is no longer present. -/
def applySwap (cat : List Card) (acc : List String × List SwapPlanEntry)
    (swap : SwapSuggestion) : List String × List SwapPlanEntry :=
  let optimizedDeck := acc.1
  if optimizedDeck.contains swap.removeCard then
    let removeCard := (getCardsById cat [swap.removeCard]).head?
    let addCard := (getCardsById cat [swap.addCard]).head?
    (optimizedDeck.set (optimizedDeck.indexOf swap.removeCard) swap.addCard,
     acc.2 ++ [{ removeCardId := swap.removeCard
                 removeCardName := (removeCard.map (fun c => c.name)).getD "Unknown"
                 addCardId := swap.addCard
                 addCardName := (addCard.map (fun c => c.name)).getD "Unknown"
                 reason := swap.reason
                 scoreDelta := swap.improvement }])
  else acc

/-- Models the core of the optimize handler after its input validation:
take the top `maxSwaps` ranked suggestions of `suggestCardSwaps` and apply
them in order, in place.  Returns the optimized deck and the swap plan. -/
def optimizeDeckCore (cat : List Card) (sq : Rat → Rat) (deck : List String)
    (maxSwaps : Nat) (playerCardLevels : Option (List PlayerCardLevel)) :
    List String × List SwapPlanEntry :=
  let swapSuggestions := suggestCardSwaps cat sq deck
    { noOptions with playerLevels := playerCardLevels }
  let swapsToApply := swapSuggestions.take maxSwaps
  swapsToApply.foldl (applySwap cat) (deck, [])

end Server

/-! ## Shared lemmas -/

/-- Concrete square-root stand-in used by the witnesses; every claim
theorem is quantified over the square-root function, so any choice works. -/
def sqZero : Rat → Rat := fun _ => 0

theorem contains_iff_mem {α : Type} [BEq α] [LawfulBEq α] (l : List α) (x : α) :
    l.contains x = true ↔ x ∈ l := by
  simp [List.contains, List.elem_iff]

/-- The missing-role list of the coverage score is the fixed required-role
list filtered by absence. -/
theorem missingRoles_eq_filter (cards : List Card) :
    (calculateCoverageScore cards).missingRoles =
      REQUIRED_ROLES.filter (fun r => ¬ hasRole cards r) := by
  cases hw : hasRole cards .win_condition <;>
    cases hs : hasRole cards .small_spell <;>
      cases hb : hasRole cards .big_spell <;>
        cases ha : hasRole cards .air_targeting <;>
          cases ht : hasRole cards .tank_killer <;>
            simp [calculateCoverageScore, REQUIRED_ROLES, List.filter, hw, hs, hb, ha, ht]

theorem missingRoles_length_le (cards : List Card) :
    (calculateCoverageScore cards).missingRoles.length ≤ 5 := by
  rw [missingRoles_eq_filter]
  exact List.length_filter_le _ _

theorem mem_missingRoles (cards : List Card) (r : CardRole) :
    r ∈ (calculateCoverageScore cards).missingRoles ↔
      r ∈ REQUIRED_ROLES ∧ hasRole cards r = false := by
  rw [missingRoles_eq_filter]
  simp [List.mem_filter]

/-- Resolving an appended id splits the resolved card list. -/
theorem getCardsById_append (cat : List Card) (ids₁ ids₂ : List String) :
    getCardsById cat (ids₁ ++ ids₂) = getCardsById cat ids₁ ++ getCardsById cat ids₂ :=
  List.filterMap_append _ _ _

/-- With duplicate-free catalog ids, looking up the id of a catalog card
returns that card. -/
theorem getCardById_of_mem (cat : List Card) (hid : (cat.map Card.id).Nodup)
    (c : Card) (hc : c ∈ cat) : getCardById cat c.id = some c := by
  have hsome : (cat.reverse.find? (fun d => decide (d.id = c.id))).isSome = true := by
    rw [List.find?_isSome]
    exact ⟨c, List.mem_reverse.mpr hc, by simp⟩
  obtain ⟨d, hd⟩ := Option.isSome_iff_exists.mp hsome
  have hdmem : d ∈ cat := List.mem_reverse.mp (List.mem_of_find?_eq_some hd)
  have hdid : d.id = c.id := by simpa using List.find?_some hd
  have : d = c := List.inj_on_of_nodup_map hid hdmem hc hdid
  rw [getCardById, hd, this]

/-- Role coverage distributes over an appended id list. -/
theorem hasRole_append (cat : List Card) (ids₁ ids₂ : List String) (r : CardRole) :
    hasRole (getCardsById cat (ids₁ ++ ids₂)) r =
      (hasRole (getCardsById cat ids₁) r || hasRole (getCardsById cat ids₂) r) := by
  rw [getCardsById_append, hasRole, List.any_append]
  rfl

/-- Adding a card never uncovers a role. -/
theorem missingRoles_append_sublist (cat : List Card) (deck : List String) (x : String) :
    (calculateCoverageScore (getCardsById cat (deck ++ [x]))).missingRoles.Sublist
      (calculateCoverageScore (getCardsById cat deck)).missingRoles := by
  rw [missingRoles_eq_filter, missingRoles_eq_filter]
  refine List.monotone_filter_right _ (fun r hr => ?_)
  simp only [decide_eq_true_eq] at hr ⊢
  intro habs
  exact hr (by rw [hasRole_append, habs, Bool.true_or])

/-- A catalog card whose id enters the deck covers all of its roles. -/
theorem hasRole_append_self (cat : List Card) (hid : (cat.map Card.id).Nodup)
    (deck : List String) (c : Card) (hc : c ∈ cat) (r : CardRole) (hr : r ∈ c.roles) :
    hasRole (getCardsById cat (deck ++ [c.id])) r = true := by
  rw [hasRole_append, Bool.or_eq_true]
  right
  have hx : getCardsById cat [c.id] = [c] := by
    simp [getCardsById, getCardById_of_mem cat hid c hc]
  rw [hx, hasRole]
  simp
  exact hr

/-! ## Claims -/

/-- Specification-side curve formula, written exactly as the spec words
it: base 60 when the rounded average is within the configured range else
30, minus the capped distance penalty, plus the cycle-card bonus, minus
the heavy-card penalty, clamped to the interval from 0 to 100. -/
def curveTotalSpec (cards : List Card) (config : ScoringConfig) : Rat :=
  let avg := round1 ((cards.map (fun c => c.elixir)).sum / (cards.length : Rat))
  let base : Rat := if config.minElixir ≤ avg ∧ avg ≤ config.maxElixir then 60 else 30
  let cheapCount := (cards.filter (fun c => c.elixir ≤ 3)).length
  let heavyCount := (cards.filter (fun c => 6 ≤ c.elixir)).length
  let cycleBonus : Rat :=
    if 2 ≤ cheapCount ∧ cheapCount ≤ 4 then 20
    else if cheapCount = 1 ∨ cheapCount = 5 then 10
    else 0
  max 0 (min 100
    (base - min (10 * |avg - config.targetElixir|) 20 + cycleBonus -
      5 * max 0 ((heavyCount : Rat) - 2)))

/-- C5: for every non-empty card list the curve sub-score follows the
specified formula (rounded average, in-range base, capped distance
penalty, cycle bonus, heavy penalty, clamp), and for the empty list the
curve score has total 0, average 0 and is not in range. -/
theorem curveScore_formula_claim (cards : List Card) (config : ScoringConfig) :
    (cards ≠ [] →
      (calculateCurveScore cards config).total = curveTotalSpec cards config ∧
      (calculateCurveScore cards config).averageElixir =
        round1 ((cards.map (fun c => c.elixir)).sum / (cards.length : Rat))) ∧
    (calculateCurveScore [] config).total = 0 ∧
    (calculateCurveScore [] config).averageElixir = 0 ∧
    (calculateCurveScore [] config).isInRange = false := by
  refine ⟨fun hne => ?_, rfl, rfl, rfl⟩
  have hlen : cards.length ≠ 0 := fun h => hne (List.length_eq_zero.mp h)
  have hheavy : ∀ n : Nat, (if 2 < n then ((n : Rat) - 2) * 5 else 0) =
      5 * max 0 ((n : Rat) - 2) := by
    intro n
    by_cases h2 : 2 < n
    · rw [if_pos h2, max_eq_right, mul_comm]
      have : (2 : Rat) ≤ (n : Rat) := by exact_mod_cast Nat.le_of_lt h2
      linarith
    · rw [if_neg h2, max_eq_left, mul_zero]
      have : (n : Rat) ≤ 2 := by exact_mod_cast Nat.le_of_not_lt h2
      linarith
  have h10 : ∀ d : Rat, min (d * 10) 20 = min (10 * d) 20 := fun d => by rw [mul_comm]
  constructor
  · simp only [calculateCurveScore, curveTotalSpec, if_neg hlen]
    rw [hheavy, h10]
    simp only [decide_eq_true_eq]
  · simp only [calculateCurveScore, if_neg hlen]

/-- Concrete card used by several witnesses. -/
def supportCard : Card :=
  { id := "w", name := "W", elixir := 3, rarity := .common, type := .troop,
    arena := 0, roles := [.support] }

/-- Specification-side formula of the Card Ranker score, exactly as the
spec words it: twice the overall-score delta, plus the player level of
the card (0 if unknown), plus twice the number of roles minus one, plus
the rarity bonus, plus the role-specific adjustment. -/
def rankScoreSpec (cat : List Card) (sq : Rat → Rat) (card : Card) (role : CardRole)
    (currentDeck : List String) (playerLevels : Option (List PlayerCardLevel))
    (config : ScoringConfig) : Rat :=
  let scoreDelta := (scoreCardAddition cat sq currentDeck card playerLevels config).delta
  let playerLevel : Rat :=
    match playerLevels with
    | none => 0
    | some pl =>
      match pl.find? (fun p => p.cardId = card.id) with
      | some p => p.level
      | none => 0
  let rarityBonus := rarityScore card.rarity
  let roleAdjustment : Rat :=
    if role = .cycle ∨ role = .small_spell then max 0 (4 - card.elixir)
    else if (role = .win_condition ∨ role = .tank) ∧ 3 < card.elixir then 2
    else 0
  2 * scoreDelta + playerLevel + 2 * ((card.roles.length : Rat) - 1) + rarityBonus +
    roleAdjustment

/-- C6: the per-candidate score of the Card Ranker equals the specified
formula: 2 times the overall-score delta of adding the card, plus the
player level of the card (0 if unknown), plus 2 times the role count
minus one, plus the rarity bonus (common 3, rare 2, epic 1, legendary 0,
champion 0), plus the role-specific adjustment (max(0, 4 - elixir) for
cycle or small spell; 2 for win condition or tank with elixir above 3;
0 otherwise). -/
theorem scoreCardForRole_formula_claim (cat : List Card) (sq : Rat → Rat) (card : Card)
    (role : CardRole) (currentDeck : List String)
    (playerLevels : Option (List PlayerCardLevel)) (config : ScoringConfig) :
    scoreCardForRole cat sq card role currentDeck playerLevels config =
      rankScoreSpec cat sq card role currentDeck playerLevels config := by
  have hadj : (if role = .cycle ∨ role = .small_spell then max 0 (4 - card.elixir)
      else if role = .win_condition ∨ role = .tank then
        (if 3 < card.elixir then (2 : Rat) else 0)
      else 0) =
      (if role = .cycle ∨ role = .small_spell then max 0 (4 - card.elixir)
      else if (role = .win_condition ∨ role = .tank) ∧ 3 < card.elixir then 2
      else 0) := by
    by_cases h1 : role = .cycle ∨ role = .small_spell
    · rw [if_pos h1, if_pos h1]
    · rw [if_neg h1, if_neg h1]
      by_cases h2 : role = .win_condition ∨ role = .tank
      · rw [if_pos h2]
        by_cases h3 : 3 < card.elixir
        · rw [if_pos h3, if_pos ⟨h2, h3⟩]
        · rw [if_neg h3, if_neg (fun hc => h3 hc.2)]
      · rw [if_neg h2, if_neg (fun hc => h2 hc.1)]
  simp only [scoreCardForRole, rankScoreSpec, hadj]
  ring

/-- C7: autofill on an input of 8 or more ids returns the first 8 ids
unchanged with empty explanations and an empty alternatives map. -/
theorem autofill_full_deck_claim (cat : List Card) (request : Autofill.AutofillRequest)
    (h : 8 ≤ request.currentCards.length) :
    Autofill.autofillDeck cat request =
      { deck := request.currentCards.take 8
        explanations := []
        alternatives := []
        averageElixir := calculateAverageElixir cat (request.currentCards.take 8) } := by
  simp only [Autofill.autofillDeck]
  rw [if_pos h]

/-- Witness for C7 at a concrete 9-id request. -/
theorem autofill_full_deck_claim_witness :
    8 ≤ (Autofill.AutofillRequest.mk ["a", "b", "c", "d", "e", "f", "g", "h", "i"]
      none none none).currentCards.length ∧
    Autofill.autofillDeck []
        (Autofill.AutofillRequest.mk ["a", "b", "c", "d", "e", "f", "g", "h", "i"]
          none none none) =
      { deck := (Autofill.AutofillRequest.mk ["a", "b", "c", "d", "e", "f", "g", "h", "i"]
          none none none).currentCards.take 8
        explanations := []
        alternatives := []
        averageElixir := calculateAverageElixir []
          ((Autofill.AutofillRequest.mk ["a", "b", "c", "d", "e", "f", "g", "h", "i"]
            none none none).currentCards.take 8) } :=
  ⟨by decide, autofill_full_deck_claim _ _ (by decide)⟩

/-- One arena step of the bucketed unlock list. -/
theorem getCardsUnlockedByArena_succ (cat : List Card) (n : Nat) :
    getCardsUnlockedByArena cat (n + 1) =
      getCardsUnlockedByArena cat n ++ cat.filter (fun c => c.arena = n + 1) := by
  rw [getCardsUnlockedByArena, getCardsUnlockedByArena, List.range_succ, List.flatMap_append]
  simp

theorem filter_arena_le_succ_perm (n : Nat) (cat : List Card) :
    (cat.filter (fun c => c.arena ≤ n) ++ cat.filter (fun c => c.arena = n + 1)).Perm
      (cat.filter (fun c => c.arena ≤ n + 1)) := by
  induction cat with
  | nil => simp
  | cons c cs ih =>
    by_cases h1 : c.arena ≤ n
    · have h2 : c.arena ≤ n + 1 := Nat.le_succ_of_le h1
      have h3 : ¬ c.arena = n + 1 := by omega
      rw [List.filter_cons, List.filter_cons, List.filter_cons,
        if_pos (by simpa using h1), if_neg (by simpa using h3), if_pos (by simpa using h2)]
      exact ih.cons c
    · by_cases h2 : c.arena = n + 1
      · have h3 : c.arena ≤ n + 1 := by omega
        rw [List.filter_cons, List.filter_cons, List.filter_cons,
          if_neg (by simpa using h1), if_pos (by simpa using h2), if_pos (by simpa using h3)]
        exact List.perm_middle.trans (ih.cons c)
      · have h3 : ¬ c.arena ≤ n + 1 := by omega
        rw [List.filter_cons, List.filter_cons, List.filter_cons,
          if_neg (by simpa using h1), if_neg (by simpa using h2), if_neg (by simpa using h3)]
        exact ih

theorem mem_getCardsUnlockedByArena_arena_le (cat : List Card) (maxA : Nat) (c : Card)
    (h : c ∈ getCardsUnlockedByArena cat maxA) : c.arena ≤ maxA := by
  rw [getCardsUnlockedByArena, List.mem_flatMap] at h
  obtain ⟨i, hi, hc⟩ := h
  rw [List.mem_range] at hi
  rw [List.mem_filter] at hc
  have := of_decide_eq_true hc.2
  omega

/-- C9 (amended): the unlock list is exactly the catalog cards with arena
at most the bound (a permutation of the catalog-order filter), but it is
ordered by ascending arena id — with catalog order only within each arena
bucket — rather than in overall catalog order. -/
theorem getCardsUnlockedByArena_claim (cat : List Card) (maxArenaId : Nat) :
    (getCardsUnlockedByArena cat maxArenaId).Perm
      (cat.filter (fun c => c.arena ≤ maxArenaId)) ∧
    (getCardsUnlockedByArena cat maxArenaId).Pairwise (fun a b => a.arena ≤ b.arena) ∧
    getCardsUnlockedByArena cat maxArenaId =
      (List.range (maxArenaId + 1)).flatMap (fun i => cat.filter (fun c => c.arena = i)) := by
  refine ⟨?_, ?_, rfl⟩
  · induction maxArenaId with
    | zero =>
      rw [getCardsUnlockedByArena]
      simp only [List.range_succ, List.range_zero, List.nil_append, List.flatMap_cons,
        List.flatMap_nil, List.append_nil]
      rw [List.filter_congr (fun c _ =>
        show decide (c.arena = 0) = decide (c.arena ≤ 0) from decide_eq_decide.mpr (by omega))]
    | succ n ih =>
      rw [getCardsUnlockedByArena_succ]
      exact (ih.append_right _).trans (filter_arena_le_succ_perm n cat)
  · induction maxArenaId with
    | zero =>
      refine List.pairwise_of_forall_mem_list (fun a ha b hb => ?_)
      have := mem_getCardsUnlockedByArena_arena_le cat 0 a ha
      omega
    | succ n ih =>
      rw [getCardsUnlockedByArena_succ, List.pairwise_append]
      refine ⟨ih, ?_, ?_⟩
      · refine List.pairwise_of_forall_mem_list (fun a ha b hb => ?_)
        rw [List.mem_filter] at ha hb
        have h1 := of_decide_eq_true ha.2
        have h2 := of_decide_eq_true hb.2
        omega
      · intro a ha b hb
        have h1 := mem_getCardsUnlockedByArena_arena_le cat n a ha
        rw [List.mem_filter] at hb
        have h2 := of_decide_eq_true hb.2
        omega

/-- Concrete two-card catalog whose later card unlocks earlier. -/
def arenaOrderCatalog : List Card :=
  [{ id := "p", name := "P", elixir := 3, rarity := .common, type := .troop,
     arena := 1, roles := [.support] },
   { id := "q", name := "Q", elixir := 3, rarity := .common, type := .troop,
     arena := 0, roles := [.support] }]

/-- Counterexample for C9: on a catalog whose second card unlocks at an
earlier arena than its first, the unlock list is not in catalog order. -/
theorem getCardsUnlockedByArena_order_counterexample :
    getCardsUnlockedByArena arenaOrderCatalog 1 ≠
      arenaOrderCatalog.filter (fun c => c.arena ≤ 1) := by decide

/-- C10: when no available card outside the current deck carries the
first missing role, selectBestCard ignores the remaining missing roles
and behaves exactly as with an empty missing-role list, proceeding to the
elixir-based preferred-role selection and the catalog-order fallback. -/
theorem selectBestCard_skips_rest_claim (cat : List Card) (sq : Rat → Rat)
    (availableCards : List Card) (currentDeck : List String) (r : CardRole)
    (rest : List CardRole) (playerLevels : Option (List PlayerCardLevel))
    (config : ScoringConfig)
    (h : ∀ c ∈ availableCards, r ∈ c.roles → c.id ∈ currentDeck) :
    selectBestCard cat sq availableCards currentDeck (r :: rest) playerLevels config =
      selectBestCard cat sq availableCards currentDeck [] playerLevels config := by
  have hcand : (getCardsByRole r availableCards).filter
      (fun c => ¬ currentDeck.contains c.id) = [] := by
    rw [List.filter_eq_nil_iff]
    intro c hc
    rw [getCardsByRole, List.mem_filter] at hc
    have hrr : r ∈ c.roles := (contains_iff_mem _ _).mp hc.2
    have hmem := h c hc.1 hrr
    simp
    exact hmem
  have hrank : getRankedCardsForRole cat sq r availableCards currentDeck playerLevels config 10
      = [] := by
    rw [getRankedCardsForRole, hcand]
    simp
  simp only [selectBestCard, selectFromMissing, hrank]

/-- Catalog of a single support card, for the C10 witness. -/
def singleSupportCatalog : List Card := [supportCard]

/-- Witness for C10: with one support-only card available and the win
condition role missing, the claim hypothesis holds, both calls agree, and
the returned card carries none of the missing required roles. -/
theorem selectBestCard_skips_rest_claim_witness :
    (∀ c ∈ singleSupportCatalog, CardRole.win_condition ∈ c.roles → c.id ∈ ([] : List String)) ∧
    selectBestCard singleSupportCatalog sqZero singleSupportCatalog [] [.win_condition]
        none DEFAULT_SCORING_CONFIG =
      selectBestCard singleSupportCatalog sqZero singleSupportCatalog [] []
        none DEFAULT_SCORING_CONFIG ∧
    selectBestCard singleSupportCatalog sqZero singleSupportCatalog [] [.win_condition]
        none DEFAULT_SCORING_CONFIG =
      some { card := supportCard, role := .support, alternatives := [] } ∧
    CardRole.win_condition ∉ supportCard.roles :=
  ⟨by decide,
   selectBestCard_skips_rest_claim singleSupportCatalog sqZero singleSupportCatalog [] _ _
     none DEFAULT_SCORING_CONFIG (by decide),
   of_decide_eq_true (by with_unfolding_all rfl), by decide⟩

/-- Clamping to the score interval lands in the score interval. -/
theorem clamp_bounds (t : Rat) : 0 ≤ max 0 (min 100 t) ∧ max 0 (min 100 t) ≤ 100 :=
  ⟨le_max_left _ _, max_le (by norm_num) (min_le_left _ _)⟩

theorem coverage_total_bounds (cards : List Card) :
    0 ≤ (calculateCoverageScore cards).total ∧ (calculateCoverageScore cards).total ≤ 100 := by
  have hm := missingRoles_length_le cards
  have hmr : ((calculateCoverageScore cards).missingRoles.length : Rat) ≤ 5 := by
    exact_mod_cast hm
  have hm0 : (0 : Rat) ≤ ((calculateCoverageScore cards).missingRoles.length : Rat) := by
    positivity
  have htot : (calculateCoverageScore cards).total =
      ((REQUIRED_ROLES.length : Rat) -
        ((calculateCoverageScore cards).missingRoles.length : Rat)) /
        (REQUIRED_ROLES.length : Rat) * 100 := rfl
  have h5 : ((REQUIRED_ROLES.length : Nat) : Rat) = 5 := by norm_num [REQUIRED_ROLES]
  rw [htot, h5]
  constructor
  · nlinarith
  · nlinarith

theorem curve_total_bounds (cards : List Card) (config : ScoringConfig) :
    0 ≤ (calculateCurveScore cards config).total ∧
      (calculateCurveScore cards config).total ≤ 100 := by
  by_cases hl : cards.length = 0
  · simp [calculateCurveScore, hl]
  · simp only [calculateCurveScore, if_neg hl]
    exact clamp_bounds _

theorem role_total_bounds (cards : List Card) :
    0 ≤ (calculateRoleScore cards).total ∧ (calculateRoleScore cards).total ≤ 100 := by
  have htot : (calculateRoleScore cards).total =
      min 100 (min (((cards.flatMap (fun c => c.roles)).dedup.length : Rat) * 5) 35 +
        ((cards.filter (fun c => 1 < c.roles.length)).length : Rat) /
          ((max cards.length 1 : Nat) : Rat) * 30 +
        ((if hasRole cards .tank && hasRole cards .support then (10 : Rat) else 0) +
         (if hasRole cards .swarm && hasRole cards .anti_swarm then (5 : Rat) else 0) +
         (if hasRole cards .win_condition && hasRole cards .small_spell then (10 : Rat) else 0))) :=
    rfl
  have hd : (0 : Rat) ≤ min (((cards.flatMap (fun c => c.roles)).dedup.length : Rat) * 5) 35 :=
    le_min (by positivity) (by norm_num)
  have hv : (0 : Rat) ≤ ((cards.filter (fun c => 1 < c.roles.length)).length : Rat) /
      ((max cards.length 1 : Nat) : Rat) * 30 := by positivity
  have hs1 : (0 : Rat) ≤ (if hasRole cards .tank && hasRole cards .support then (10 : Rat) else 0) := by
    split <;> norm_num
  have hs2 : (0 : Rat) ≤ (if hasRole cards .swarm && hasRole cards .anti_swarm then (5 : Rat) else 0) := by
    split <;> norm_num
  have hs3 : (0 : Rat) ≤
      (if hasRole cards .win_condition && hasRole cards .small_spell then (10 : Rat) else 0) := by
    split <;> norm_num
  rw [htot]
  exact ⟨le_min (by norm_num) (by linarith), min_le_left _ _⟩

theorem levelFit_total_bounds (sq : Rat → Rat) (cards : List Card)
    (playerLevels : Option (List PlayerCardLevel)) :
    0 ≤ (calculateLevelFitScore sq cards playerLevels).total ∧
      (calculateLevelFitScore sq cards playerLevels).total ≤ 100 := by
  match playerLevels with
  | none =>
    have h : (calculateLevelFitScore sq cards none).total = 50 := rfl
    rw [h]
    exact ⟨by norm_num, by norm_num⟩
  | some pl =>
    by_cases hc : pl.length = 0 ∨ cards.length = 0
    · simp only [calculateLevelFitScore, if_pos hc]
      exact ⟨by norm_num, by norm_num⟩
    · simp only [calculateLevelFitScore, if_neg hc]
      exact clamp_bounds _

/-- Rounding to one decimal stays within the score interval. -/
theorem round1_bounds (x : Rat) (h0 : 0 ≤ x) (h1 : x ≤ 100) :
    0 ≤ round1 x ∧ round1 x ≤ 100 := by
  constructor
  · have : (0 : Int) ≤ ⌊x * 10 + 1/2⌋ := Int.le_floor.mpr (by push_cast; linarith)
    rw [round1]
    have h2 : (0 : Rat) ≤ ((⌊x * 10 + 1/2⌋ : Int) : Rat) := by exact_mod_cast this
    linarith
  · have hle : ⌊x * 10 + 1/2⌋ ≤ ⌊(1000.5 : Rat)⌋ := Int.floor_le_floor (by linarith)
    have hfl : ⌊(1000.5 : Rat)⌋ = 1000 := by
      rw [Int.floor_eq_iff]
      norm_num
    rw [hfl] at hle
    rw [round1]
    have h2 : ((⌊x * 10 + 1/2⌋ : Int) : Rat) ≤ 1000 := by exact_mod_cast hle
    linarith

/-- C4: with non-negative weights summing to 1, each of the four
sub-scores and the rounded weighted overall score lie between 0 and
100. -/
theorem deckScore_bounds_claim (cat : List Card) (sq : Rat → Rat) (cardIds : List String)
    (playerLevels : Option (List PlayerCardLevel)) (config : ScoringConfig)
    (hwc : 0 ≤ config.weights.coverage) (hwu : 0 ≤ config.weights.curve)
    (hwr : 0 ≤ config.weights.role) (hwl : 0 ≤ config.weights.levelFit)
    (hsum : config.weights.coverage + config.weights.curve + config.weights.role +
      config.weights.levelFit = 1) :
    (0 ≤ (scoreDeck cat sq cardIds playerLevels config).coverage.total ∧
      (scoreDeck cat sq cardIds playerLevels config).coverage.total ≤ 100) ∧
    (0 ≤ (scoreDeck cat sq cardIds playerLevels config).curve.total ∧
      (scoreDeck cat sq cardIds playerLevels config).curve.total ≤ 100) ∧
    (0 ≤ (scoreDeck cat sq cardIds playerLevels config).role.total ∧
      (scoreDeck cat sq cardIds playerLevels config).role.total ≤ 100) ∧
    (0 ≤ (scoreDeck cat sq cardIds playerLevels config).levelFit.total ∧
      (scoreDeck cat sq cardIds playerLevels config).levelFit.total ≤ 100) ∧
    (0 ≤ (scoreDeck cat sq cardIds playerLevels config).overall ∧
      (scoreDeck cat sq cardIds playerLevels config).overall ≤ 100) := by
  have hco := coverage_total_bounds (getCardsById cat cardIds)
  have hcu := curve_total_bounds (getCardsById cat cardIds) config
  have hro := role_total_bounds (getCardsById cat cardIds)
  have hlf := levelFit_total_bounds sq (getCardsById cat cardIds) playerLevels
  refine ⟨hco, hcu, hro, hlf, ?_⟩
  have hover : (scoreDeck cat sq cardIds playerLevels config).overall =
      round1 ((calculateCoverageScore (getCardsById cat cardIds)).total * config.weights.coverage +
        (calculateCurveScore (getCardsById cat cardIds) config).total * config.weights.curve +
        (calculateRoleScore (getCardsById cat cardIds)).total * config.weights.role +
        (calculateLevelFitScore sq (getCardsById cat cardIds) playerLevels).total *
          config.weights.levelFit) := rfl
  rw [hover]
  apply round1_bounds
  · have t1 : 0 ≤ (calculateCoverageScore (getCardsById cat cardIds)).total *
        config.weights.coverage := mul_nonneg hco.1 hwc
    have t2 : 0 ≤ (calculateCurveScore (getCardsById cat cardIds) config).total *
        config.weights.curve := mul_nonneg hcu.1 hwu
    have t3 : 0 ≤ (calculateRoleScore (getCardsById cat cardIds)).total *
        config.weights.role := mul_nonneg hro.1 hwr
    have t4 : 0 ≤ (calculateLevelFitScore sq (getCardsById cat cardIds) playerLevels).total *
        config.weights.levelFit := mul_nonneg hlf.1 hwl
    linarith
  · have t1 : (calculateCoverageScore (getCardsById cat cardIds)).total *
        config.weights.coverage ≤ 100 * config.weights.coverage :=
      mul_le_mul_of_nonneg_right hco.2 hwc
    have t2 : (calculateCurveScore (getCardsById cat cardIds) config).total *
        config.weights.curve ≤ 100 * config.weights.curve :=
      mul_le_mul_of_nonneg_right hcu.2 hwu
    have t3 : (calculateRoleScore (getCardsById cat cardIds)).total *
        config.weights.role ≤ 100 * config.weights.role :=
      mul_le_mul_of_nonneg_right hro.2 hwr
    have t4 : (calculateLevelFitScore sq (getCardsById cat cardIds) playerLevels).total *
        config.weights.levelFit ≤ 100 * config.weights.levelFit :=
      mul_le_mul_of_nonneg_right hlf.2 hwl
    nlinarith

/-- Witness for C4 at the default configuration on a concrete deck. -/
theorem deckScore_bounds_claim_witness :
    (0 ≤ DEFAULT_SCORING_CONFIG.weights.coverage ∧
     0 ≤ DEFAULT_SCORING_CONFIG.weights.curve ∧
     0 ≤ DEFAULT_SCORING_CONFIG.weights.role ∧
     0 ≤ DEFAULT_SCORING_CONFIG.weights.levelFit ∧
     DEFAULT_SCORING_CONFIG.weights.coverage + DEFAULT_SCORING_CONFIG.weights.curve +
       DEFAULT_SCORING_CONFIG.weights.role + DEFAULT_SCORING_CONFIG.weights.levelFit = 1) ∧
    (0 ≤ (scoreDeck [supportCard] sqZero ["w"] none DEFAULT_SCORING_CONFIG).overall ∧
      (scoreDeck [supportCard] sqZero ["w"] none DEFAULT_SCORING_CONFIG).overall ≤ 100) :=
  ⟨⟨of_decide_eq_true (by with_unfolding_all rfl),
    of_decide_eq_true (by with_unfolding_all rfl),
    of_decide_eq_true (by with_unfolding_all rfl),
    of_decide_eq_true (by with_unfolding_all rfl),
    of_decide_eq_true (by with_unfolding_all rfl)⟩,
   (deckScore_bounds_claim [supportCard] sqZero ["w"] none DEFAULT_SCORING_CONFIG
      (of_decide_eq_true (by with_unfolding_all rfl))
      (of_decide_eq_true (by with_unfolding_all rfl))
      (of_decide_eq_true (by with_unfolding_all rfl))
      (of_decide_eq_true (by with_unfolding_all rfl))
      (of_decide_eq_true (by with_unfolding_all rfl))).2.2.2.2⟩

/-- The five sequential missing-role pushes equal the filtered
required-role list mapped to its issue strings. -/
theorem roleIssue_concat (cards : List Card) :
    ((if hasRole cards .win_condition then [] else [Autofill.roleIssue .win_condition]) ++
     (if hasRole cards .small_spell then [] else [Autofill.roleIssue .small_spell]) ++
     (if hasRole cards .big_spell then [] else [Autofill.roleIssue .big_spell]) ++
     (if hasRole cards .air_targeting then [] else [Autofill.roleIssue .air_targeting]) ++
     (if hasRole cards .tank_killer then [] else [Autofill.roleIssue .tank_killer])) =
      (REQUIRED_ROLES.filter (fun r => ¬ hasRole cards r)).map Autofill.roleIssue := by
  cases h1 : hasRole cards .win_condition <;>
    cases h2 : hasRole cards .small_spell <;>
      cases h3 : hasRole cards .big_spell <;>
        cases h4 : hasRole cards .air_targeting <;>
          cases h5 : hasRole cards .tank_killer <;>
            simp [REQUIRED_ROLES, List.filter, h1, h2, h3, h4, h5]

/-- C8: validateDeck is valid exactly when its issue list is empty, and
the issue list is precisely the wrong-count string (when the length is
not 8), followed by one string per missing required role in the fixed
role order, followed by the too-low and too-high average-elixir
strings. -/
theorem validateDeck_issues_claim (cat : List Card) (cardIds : List String) :
    ((Autofill.validateDeck cat cardIds).isValid = true ↔
      (Autofill.validateDeck cat cardIds).issues = []) ∧
    (Autofill.validateDeck cat cardIds).issues =
      (if cardIds.length ≠ 8 then [Autofill.countIssue cardIds.length] else []) ++
      ((REQUIRED_ROLES.filter
          (fun r => ¬ hasRole (getCardsById cat cardIds) r)).map Autofill.roleIssue) ++
      (if calculateAverageElixir cat cardIds < Autofill.MIN_AVG_ELIXIR then
        [Autofill.lowElixirIssue (calculateAverageElixir cat cardIds)] else []) ++
      (if Autofill.MAX_AVG_ELIXIR < calculateAverageElixir cat cardIds then
        [Autofill.highElixirIssue (calculateAverageElixir cat cardIds)] else []) := by
  constructor
  · simp only [Autofill.validateDeck, List.isEmpty_iff]
  · have hissues : (Autofill.validateDeck cat cardIds).issues =
        (if cardIds.length ≠ 8 then [Autofill.countIssue cardIds.length] else []) ++
        ((if hasRole (getCardsById cat cardIds) .win_condition then []
            else [Autofill.roleIssue .win_condition]) ++
         (if hasRole (getCardsById cat cardIds) .small_spell then []
            else [Autofill.roleIssue .small_spell]) ++
         (if hasRole (getCardsById cat cardIds) .big_spell then []
            else [Autofill.roleIssue .big_spell]) ++
         (if hasRole (getCardsById cat cardIds) .air_targeting then []
            else [Autofill.roleIssue .air_targeting]) ++
         (if hasRole (getCardsById cat cardIds) .tank_killer then []
            else [Autofill.roleIssue .tank_killer])) ++
        (if calculateAverageElixir cat cardIds < Autofill.MIN_AVG_ELIXIR then
          [Autofill.lowElixirIssue (calculateAverageElixir cat cardIds)] else []) ++
        (if Autofill.MAX_AVG_ELIXIR < calculateAverageElixir cat cardIds then
          [Autofill.highElixirIssue (calculateAverageElixir cat cardIds)] else []) := by
      simp only [Autofill.validateDeck, Autofill.analyzeDeck, List.append_assoc]
    rw [hissues, roleIssue_concat]

/-- C2: every suggestion of the swap advisor improves the overall score
by strictly more than 1 (with scoreBefore the overall score of the input
deck and scoreAfter the overall score of the deck with the swap applied),
the returned list is sorted by improvement descending, and at most 5
suggestions are returned in total across all removal slots. -/
theorem suggestCardSwaps_claim (cat : List Card) (sq : Rat → Rat) (deck : List String)
    (options : CandidateGenerationOptions) (_hlen : deck.length = 8) :
    (∀ s ∈ suggestCardSwaps cat sq deck options,
      1 < s.scoreAfter - s.scoreBefore ∧
      s.improvement = s.scoreAfter - s.scoreBefore ∧
      s.scoreBefore = (scoreDeck cat sq deck options.playerLevels
        (options.scoringConfig.getD DEFAULT_SCORING_CONFIG)).overall ∧
      s.scoreAfter = (scoreDeck cat sq
        (deck.filter (fun id => id ≠ s.removeCard) ++ [s.addCard]) options.playerLevels
        (options.scoringConfig.getD DEFAULT_SCORING_CONFIG)).overall) ∧
    (suggestCardSwaps cat sq deck options).Pairwise
      (fun a b => b.improvement ≤ a.improvement) ∧
    (suggestCardSwaps cat sq deck options).length ≤ 5 := by
  refine ⟨?_, ?_, ?_⟩
  · intro s hs
    have hs1 : s ∈ (suggestCardSwapsRaw cat sq deck options).mergeSort
        (fun a b => decide (b.improvement ≤ a.improvement)) := List.mem_of_mem_take hs
    have hs2 : s ∈ suggestCardSwapsRaw cat sq deck options := List.mem_mergeSort.mp hs1
    rw [suggestCardSwapsRaw, List.mem_flatMap] at hs2
    obtain ⟨rm, _hrm, hs3⟩ := hs2
    rw [List.mem_filterMap] at hs3
    obtain ⟨rp, _hrp, hs4⟩ := hs3
    by_cases himp : 1 < (scoreDeck cat sq (deck.filter (fun id => id ≠ rm.id) ++ [rp.id])
        options.playerLevels (options.scoringConfig.getD DEFAULT_SCORING_CONFIG)).overall -
        (scoreDeck cat sq deck options.playerLevels
          (options.scoringConfig.getD DEFAULT_SCORING_CONFIG)).overall
    · rw [if_pos himp] at hs4
      obtain ⟨rfl⟩ := hs4
      refine ⟨himp, rfl, rfl, rfl⟩
    · rw [if_neg himp] at hs4
      exact absurd hs4 (by simp)
  · have hsorted := @List.sorted_mergeSort SwapSuggestion
      (fun a b => decide (b.improvement ≤ a.improvement))
      (fun a b c hab hbc => by
        simp only [decide_eq_true_eq] at hab hbc ⊢
        exact le_trans hbc hab)
      (fun a b => by
        simp only [Bool.or_eq_true, decide_eq_true_eq]
        exact le_total b.improvement a.improvement)
      (suggestCardSwapsRaw cat sq deck options)
    have hpair : ((suggestCardSwapsRaw cat sq deck options).mergeSort
        (fun a b => decide (b.improvement ≤ a.improvement))).Pairwise
        (fun a b => b.improvement ≤ a.improvement) :=
      hsorted.imp (fun h => of_decide_eq_true h)
    exact hpair.sublist (List.take_sublist _ _)
  · exact List.length_take_le _ _

/-- Witness for C2 at a deck of 8 unknown ids over the empty catalog
(the advisor returns no suggestions there). -/
theorem suggestCardSwaps_claim_witness :
    (["a", "b", "c", "d", "e", "f", "g", "h"] : List String).length = 8 ∧
    (∀ s ∈ suggestCardSwaps [] sqZero ["a", "b", "c", "d", "e", "f", "g", "h"] noOptions,
      1 < s.scoreAfter - s.scoreBefore ∧
      s.improvement = s.scoreAfter - s.scoreBefore ∧
      s.scoreBefore = (scoreDeck [] sqZero ["a", "b", "c", "d", "e", "f", "g", "h"]
        noOptions.playerLevels
        (noOptions.scoringConfig.getD DEFAULT_SCORING_CONFIG)).overall ∧
      s.scoreAfter = (scoreDeck [] sqZero
        ((["a", "b", "c", "d", "e", "f", "g", "h"] : List String).filter
          (fun id => id ≠ s.removeCard) ++ [s.addCard]) noOptions.playerLevels
        (noOptions.scoringConfig.getD DEFAULT_SCORING_CONFIG)).overall) :=
  ⟨by decide,
   (suggestCardSwaps_claim [] sqZero ["a", "b", "c", "d", "e", "f", "g", "h"] noOptions
     (by decide)).1⟩

/-- Every entry of a ranked-card list is an available card with the
requested role that is not in the current deck. -/
theorem mem_getRankedCardsForRole {cat : List Card} {sq : Rat → Rat} {role : CardRole}
    {availableCards : List Card} {currentDeck : List String}
    {playerLevels : Option (List PlayerCardLevel)} {config : ScoringConfig} {limit : Nat}
    {x : RankedCard}
    (hx : x ∈ getRankedCardsForRole cat sq role availableCards currentDeck playerLevels
      config limit) :
    x.card ∈ availableCards ∧ x.card.id ∉ currentDeck ∧ role ∈ x.card.roles := by
  rw [getRankedCardsForRole] at hx
  have hx1 := List.mem_of_mem_take hx
  have hx2 := List.mem_mergeSort.mp hx1
  rw [List.mem_map] at hx2
  obtain ⟨c, hc, rfl⟩ := hx2
  rw [List.mem_filter] at hc
  obtain ⟨hc1, hc2⟩ := hc
  rw [getCardsByRole, List.mem_filter] at hc1
  refine ⟨hc1.1, ?_, (contains_iff_mem _ _).mp hc1.2⟩
  simp at hc2
  exact hc2

/-- A ranked-card list is non-empty as soon as some available card not in
the deck carries the role. -/
theorem getRankedCardsForRole_ne_nil (cat : List Card) (sq : Rat → Rat) (role : CardRole)
    (availableCards : List Card) (currentDeck : List String)
    (playerLevels : Option (List PlayerCardLevel)) (config : ScoringConfig)
    (c : Card) (hc : c ∈ availableCards) (hrole : role ∈ c.roles)
    (hid : c.id ∉ currentDeck) :
    getRankedCardsForRole cat sq role availableCards currentDeck playerLevels config 10
      ≠ [] := by
  intro h
  rw [getRankedCardsForRole, List.take_eq_nil_iff] at h
  rcases h with h | h
  · exact absurd h (by norm_num)
  · have hmem : c ∈ (getCardsByRole role availableCards).filter
        (fun d => ¬ currentDeck.contains d.id) := by
      rw [List.mem_filter]
      refine ⟨?_, by simpa using hid⟩
      rw [getCardsByRole, List.mem_filter]
      exact ⟨hc, (contains_iff_mem _ _).mpr hrole⟩
    have hperm := List.mergeSort_perm
      (((getCardsByRole role availableCards).filter
        (fun d => ¬ currentDeck.contains d.id)).map (fun card =>
          RankedCard.mk card (scoreCardForRole cat sq card role currentDeck playerLevels config)))
      (fun a b => decide (b.score ≤ a.score))
    rw [h] at hperm
    have hlen := hperm.length_eq
    simp only [List.length_nil, List.length_map] at hlen
    rw [List.eq_nil_of_length_eq_zero hlen.symm] at hmem
    exact absurd hmem (List.not_mem_nil c)

/-- When the head missing role has an available card outside the deck,
selectBestCard returns the top ranked card for that role. -/
theorem selectBestCard_missing_head (cat : List Card) (sq : Rat → Rat)
    (availableCards : List Card) (currentDeck : List String) (r : CardRole)
    (mrest : List CardRole) (playerLevels : Option (List PlayerCardLevel))
    (config : ScoringConfig) (top : RankedCard) (rest2 : List RankedCard)
    (hrk : getRankedCardsForRole cat sq r availableCards currentDeck playerLevels config 10
      = top :: rest2) :
    selectBestCard cat sq availableCards currentDeck (r :: mrest) playerLevels config =
      some { card := top.card, role := r, alternatives := rest2.take 3 } := by
  simp [selectBestCard, selectFromMissing, hrk, Option.orElse]

/-- A returned selection always holds an available card that is not in
the current deck. -/
theorem selectBestCard_some_mem {cat : List Card} {sq : Rat → Rat}
    {availableCards : List Card} {currentDeck : List String} {missingRoles : List CardRole}
    {playerLevels : Option (List PlayerCardLevel)} {config : ScoringConfig} {sel : Selection}
    (hsel : selectBestCard cat sq availableCards currentDeck missingRoles playerLevels config
      = some sel) :
    sel.card ∈ availableCards ∧ sel.card.id ∉ currentDeck := by
  rw [selectBestCard] at hsel
  cases hfm : selectFromMissing cat sq availableCards currentDeck missingRoles
      playerLevels config with
  | some s =>
    rw [hfm] at hsel
    simp [Option.orElse] at hsel
    subst hsel
    cases missingRoles with
    | nil => simp [selectFromMissing] at hfm
    | cons r mrest =>
      cases hrk : getRankedCardsForRole cat sq r availableCards currentDeck playerLevels
          config 10 with
      | nil => simp [selectFromMissing, hrk] at hfm
      | cons top rest2 =>
        simp only [selectFromMissing, hrk] at hfm
        have := mem_getRankedCardsForRole (hrk ▸ List.mem_cons_self top rest2)
        obtain ⟨h1, h2, _⟩ := this
        cases hfm
        exact ⟨h1, h2⟩
  | none =>
    rw [hfm] at hsel
    simp only [Option.orElse] at hsel
    cases hfp : selectFromPreferred cat sq availableCards currentDeck playerLevels config with
    | some s =>
      rw [hfp] at hsel
      simp at hsel
      subst hsel
      rw [selectFromPreferred, List.findSome?_eq_some_iff] at hfp
      obtain ⟨l₁, role, l₂, _hsplit, hrole, _hbefore⟩ := hfp
      cases hrk : getRankedCardsForRole cat sq role availableCards currentDeck playerLevels
          config 10 with
      | nil => rw [hrk] at hrole; exact absurd hrole (by simp)
      | cons top rest2 =>
        rw [hrk] at hrole
        have := mem_getRankedCardsForRole (hrk ▸ List.mem_cons_self top rest2)
        obtain ⟨h1, h2, _⟩ := this
        cases hrole
        exact ⟨h1, h2⟩
    | none =>
      rw [hfp] at hsel
      simp only [] at hsel
      rw [selectFallback.eq_def] at hsel
      cases hfl : availableCards.filter (fun c => ¬ currentDeck.contains c.id) with
      | nil => rw [hfl] at hsel; exact absurd hsel (by simp)
      | cons first rest =>
        rw [hfl] at hsel
        simp at hsel
        subst hsel
        have hmem : first ∈ availableCards.filter (fun c => ¬ currentDeck.contains c.id) :=
          hfl ▸ List.mem_cons_self first rest
        rw [List.mem_filter] at hmem
        refine ⟨hmem.1, ?_⟩
        have := hmem.2
        simp at this
        exact this

/-- While some available card is outside the deck, selectBestCard never
returns null. -/
theorem selectBestCard_progress (cat : List Card) (sq : Rat → Rat)
    (availableCards : List Card) (currentDeck : List String) (missingRoles : List CardRole)
    (playerLevels : Option (List PlayerCardLevel)) (config : ScoringConfig)
    (h : ∃ c ∈ availableCards, c.id ∉ currentDeck) :
    ∃ sel, selectBestCard cat sq availableCards currentDeck missingRoles playerLevels config
      = some sel := by
  cases hres : selectBestCard cat sq availableCards currentDeck missingRoles
      playerLevels config with
  | some sel => exact ⟨sel, rfl⟩
  | none =>
    exfalso
    obtain ⟨c, hc, hcid⟩ := h
    rw [selectBestCard] at hres
    cases hfm : selectFromMissing cat sq availableCards currentDeck missingRoles
        playerLevels config with
    | some s => rw [hfm] at hres; exact absurd hres (by simp [Option.orElse])
    | none =>
      rw [hfm] at hres
      simp only [Option.orElse] at hres
      cases hfp : selectFromPreferred cat sq availableCards currentDeck playerLevels config with
      | some s => rw [hfp] at hres; exact absurd hres (by simp)
      | none =>
        rw [hfp] at hres
        simp only [] at hres
        rw [selectFallback.eq_def] at hres
        cases hfl : availableCards.filter (fun d => ¬ currentDeck.contains d.id) with
        | cons first rest => rw [hfl] at hres; exact absurd hres (by simp)
        | nil =>
          rw [List.filter_eq_nil_iff] at hfl
          have := hfl c hc
          simp at this
          exact hcid this

/-- Appending a fresh id keeps a deck duplicate-free. -/
theorem nodup_append_singleton {deck : List String} {x : String}
    (hnd : deck.Nodup) (hx : x ∉ deck) : (deck ++ [x]).Nodup :=
  List.nodup_append.mpr ⟨hnd, List.nodup_singleton x, List.disjoint_singleton.mpr hx⟩

/-- On a catalog with duplicate-free ids, at least 8 cards, and at least
one card per required role, the completion loop always reaches an
8-card, duplicate-free deck with no missing required role. -/
theorem completionLoop_spec (cat : List Card) (sq : Rat → Rat)
    (playerLevels : Option (List PlayerCardLevel)) (config : ScoringConfig)
    (hid : (cat.map Card.id).Nodup) (hcat : 8 ≤ cat.length)
    (hroles : ∀ r ∈ REQUIRED_ROLES, ∃ c ∈ cat, r ∈ c.roles) :
    ∀ n deck added, n = 8 - deck.length → deck.Nodup → deck.length ≤ 8 →
      (getMissingRoles cat deck).length ≤ 8 - deck.length →
      ((completionLoop cat sq cat playerLevels config deck added).1.length = 8 ∧
       (completionLoop cat sq cat playerLevels config deck added).1.Nodup ∧
       getMissingRoles cat (completionLoop cat sq cat playerLevels config deck added).1 = []) := by
  intro n
  induction n using Nat.strong_induction_on with
  | _ n ih =>
    intro deck added hn hnd hd8 hmiss
    rw [completionLoop]
    by_cases hlt : deck.length < 8
    · rw [dif_pos hlt]
      have hex : ∃ c ∈ cat, c.id ∉ deck := by
        by_contra hco
        push_neg at hco
        have hsub : (cat.map Card.id) ⊆ deck := by
          intro x hx
          rw [List.mem_map] at hx
          obtain ⟨c, hc, rfl⟩ := hx
          exact hco c hc
        have hle := (List.subperm_of_subset hid hsub).length_le
        rw [List.length_map] at hle
        omega
      cases hm : getMissingRoles cat deck with
      | nil =>
        obtain ⟨sel, hsel⟩ := selectBestCard_progress cat sq cat deck [] playerLevels
          config hex
        obtain ⟨hselmem, hselid⟩ := selectBestCard_some_mem hsel
        rw [hsel]
        have hnd2 : (deck ++ [sel.card.id]).Nodup := nodup_append_singleton hnd hselid
        have hm2 : getMissingRoles cat (deck ++ [sel.card.id]) = [] := by
          have hsub := missingRoles_append_sublist cat deck sel.card.id
          rw [show (calculateCoverageScore (getCardsById cat deck)).missingRoles =
            getMissingRoles cat deck from rfl, hm, List.sublist_nil] at hsub
          exact hsub
        exact ih (8 - (deck.length + 1)) (by omega) (deck ++ [sel.card.id]) _
          (by simp) hnd2 (by simp; omega) (by rw [List.length_append]; simp [hm2])
      | cons r mrest =>
        have hrmem : r ∈ getMissingRoles cat deck := hm ▸ List.mem_cons_self r mrest
        have hr5 := (mem_missingRoles (getCardsById cat deck) r).mp hrmem
        obtain ⟨c0, hc0cat, hc0r⟩ := hroles r hr5.1
        have hc0id : c0.id ∉ deck := by
          intro habs
          have hlook := getCardById_of_mem cat hid c0 hc0cat
          have hc0mem : c0 ∈ getCardsById cat deck := by
            rw [getCardsById, List.mem_filterMap]
            exact ⟨c0.id, habs, hlook⟩
          have htrue : hasRole (getCardsById cat deck) r = true := by
            rw [hasRole, List.any_eq_true]
            exact ⟨c0, hc0mem, (contains_iff_mem _ _).mpr hc0r⟩
          rw [hr5.2] at htrue
          exact Bool.false_ne_true htrue
        have hne := getRankedCardsForRole_ne_nil cat sq r cat deck playerLevels config
          c0 hc0cat hc0r hc0id
        obtain ⟨top, rest2, hrk⟩ : ∃ top rest2,
            getRankedCardsForRole cat sq r cat deck playerLevels config 10 = top :: rest2 := by
          cases h : getRankedCardsForRole cat sq r cat deck playerLevels config 10 with
          | nil => exact absurd h hne
          | cons a b => exact ⟨a, b, rfl⟩
        have hsel := selectBestCard_missing_head cat sq cat deck r mrest playerLevels config
          top rest2 hrk
        obtain ⟨htopmem, htopid, htoprole⟩ :=
          mem_getRankedCardsForRole (hrk ▸ List.mem_cons_self top rest2)
        rw [hsel]
        have hnd2 : (deck ++ [top.card.id]).Nodup := nodup_append_singleton hnd htopid
        have hsub := missingRoles_append_sublist cat deck top.card.id
        have hrnot : r ∉ getMissingRoles cat (deck ++ [top.card.id]) := by
          intro habs
          have h2 := ((mem_missingRoles (getCardsById cat (deck ++ [top.card.id])) r).mp habs).2
          have h3 := hasRole_append_self cat hid deck top.card htopmem r htoprole
          rw [h2] at h3
          exact Bool.false_ne_true h3
        have hlt2 : (getMissingRoles cat (deck ++ [top.card.id])).length <
            (getMissingRoles cat deck).length := by
          rcases lt_or_eq_of_le hsub.length_le with h | h
          · exact h
          · exfalso
            have := hsub.eq_of_length h
            rw [show (calculateCoverageScore (getCardsById cat (deck ++ [top.card.id]))).missingRoles
              = getMissingRoles cat (deck ++ [top.card.id]) from rfl,
              show (calculateCoverageScore (getCardsById cat deck)).missingRoles
              = getMissingRoles cat deck from rfl] at this
            rw [this] at hrnot
            exact hrnot hrmem
        exact ih (8 - (deck.length + 1)) (by omega) (deck ++ [top.card.id]) _
          (by simp) hnd2 (by simp; omega)
          (by rw [List.length_append]; simp only [List.length_singleton]; omega)
    · rw [dif_neg hlt]
      have h8 : deck.length = 8 := by omega
      refine ⟨h8, hnd, ?_⟩
      have : (getMissingRoles cat deck).length = 0 := by omega
      exact List.length_eq_zero.mp this

/-- Under the catalog hypotheses, an unconstrained completion of the
empty deck succeeds with 8 distinct ids and full required-role
coverage. -/
theorem generateSingleCompletion_complete (cat : List Card) (sq : Rat → Rat)
    (playerLevels : Option (List PlayerCardLevel)) (config : ScoringConfig)
    (hid : (cat.map Card.id).Nodup) (hcat : 8 ≤ cat.length)
    (hroles : ∀ r ∈ REQUIRED_ROLES, ∃ c ∈ cat, r ∈ c.roles) :
    ∃ cand, generateSingleCompletion cat sq [] cat playerLevels config [] = some cand ∧
      cand.cards.length = 8 ∧ cand.cards.Nodup ∧
      cand.score.coverage.missingRoles = [] := by
  have hfilter : cat.filter (fun c => ¬ (([] : List String).contains c.id)) = cat :=
    List.filter_eq_self.mpr (fun a _ => by simp)
  have hm0 : (getMissingRoles cat []).length ≤ 8 - ([] : List String).length := by
    have h := missingRoles_length_le (getCardsById cat [])
    rw [getMissingRoles]
    simp only [List.length_nil]
    omega
  have hspec := completionLoop_spec cat sq playerLevels config hid hcat hroles
    (8 - ([] : List String).length) [] [] rfl List.nodup_nil (by simp) hm0
  obtain ⟨h8, hnd, hmiss⟩ := hspec
  refine ⟨{ cards := (completionLoop cat sq cat playerLevels config [] []).1
            score := scoreDeck cat sq (completionLoop cat sq cat playerLevels config [] []).1
              playerLevels config
            addedCards := (completionLoop cat sq cat playerLevels config [] []).2 }, ?_, h8, hnd, hmiss⟩
  rw [generateSingleCompletion, hfilter]
  rw [if_neg (by omega)]

/-- If one loop iteration leaves the state unchanged and the termination
guard does not fire, the diversity loop of the JS source never
terminates: the fueled model returns `none` for every fuel. -/
theorem genLoop_none_of_stuck (cat : List Card) (sq : Rat → Rat)
    (startingCards : List String) (availableCards : List Card)
    (playerLevels : Option (List PlayerCardLevel)) (config : ScoringConfig)
    (maxCandidates : Nat) (st : GenState)
    (hlt : st.candidates.length < maxCandidates)
    (hstep : genStep cat sq startingCards availableCards playerLevels config st = st)
    (hguard : ¬ (((genExcludeCards st).length : Rat) > (availableCards.length : Rat) * 0.5)) :
    ∀ fuel, genLoop cat sq startingCards availableCards playerLevels config maxCandidates
      fuel st = none := by
  intro fuel
  induction fuel with
  | zero => rfl
  | succ n ih =>
    rw [genLoop, if_pos hlt, hstep, if_neg hguard]
    exact ih

/-- Card constructor used by the concrete catalogs below (common troop of
arena 0). -/
def troop (id name : String) (elixir : Rat) (roles : List CardRole) : Card :=
  { id := id, name := name, elixir := elixir, rarity := .common, type := .troop,
    arena := 0, roles := roles }

/-- Nine-card catalog on which the optimize endpoint duplicates a card:
the deck below misses a win condition, and the only replacement candidate
X (support and win condition) is role-compatible with both support cards
A and B, so two ranked suggestions both add X. -/
def optimizeBugCatalog : List Card :=
  [ troop "A" "CardA" 3 [.support]
  , troop "B" "CardB" 3 [.support]
  , troop "C" "CardC" 3 [.cycle]
  , troop "D" "CardD" 3 [.small_spell]
  , troop "E" "CardE" 3 [.big_spell]
  , troop "F" "CardF" 3 [.air_targeting]
  , troop "G" "CardG" 3 [.tank_killer]
  , troop "H" "CardH" 3 [.tank]
  , troop "X" "CardX" 3 [.support, .win_condition]
  ]

/-- The 8-card input deck of the duplicating optimize run. -/
def optimizeBugDeck : List String := ["A", "B", "C", "D", "E", "F", "G", "H"]

set_option maxRecDepth 400000 in
/-- C1 fails on the optimize operation: the input deck passes every
validation of the handler (8 distinct, all ids resolvable), both applied
swaps suggest the same added card, and the optimized deck contains the
id X twice.  The generation and autofill operations are not at fault; the
in-place swap loop of the optimize handler never re-checks that an added
card is still absent. -/
theorem optimize_duplicate_id_bug :
    optimizeBugDeck.length = 8 ∧
    optimizeBugDeck.Nodup ∧
    (getCardsById optimizeBugCatalog optimizeBugDeck).length = 8 ∧
    (suggestCardSwaps optimizeBugCatalog sqZero optimizeBugDeck
      { noOptions with playerLevels := none }).map
        (fun s => (s.removeCard, s.addCard)) = [("A", "X"), ("B", "X")] ∧
    (Server.optimizeDeckCore optimizeBugCatalog sqZero optimizeBugDeck 3 none).1 =
      ["X", "X", "C", "D", "E", "F", "G", "H"] ∧
    ¬ (Server.optimizeDeckCore optimizeBugCatalog sqZero optimizeBugDeck 3 none).1.Nodup := by
  have heq : (Server.optimizeDeckCore optimizeBugCatalog sqZero optimizeBugDeck 3 none).1 =
      ["X", "X", "C", "D", "E", "F", "G", "H"] :=
    of_decide_eq_true (by with_unfolding_all rfl)
  refine ⟨by decide, by decide,
    of_decide_eq_true (by with_unfolding_all rfl),
    of_decide_eq_true (by with_unfolding_all rfl), heq, ?_⟩
  rw [heq]
  decide

/-- A loop exit of the diversity loop: once enough candidates are
accepted the loop returns them (any positive fuel). -/
theorem genLoop_done (cat : List Card) (sq : Rat → Rat) (startingCards : List String)
    (availableCards : List Card) (playerLevels : Option (List PlayerCardLevel))
    (config : ScoringConfig) (maxCandidates : Nat) (fuel : Nat) (st : GenState)
    (h : ¬ st.candidates.length < maxCandidates) :
    genLoop cat sq startingCards availableCards playerLevels config maxCandidates
      (fuel + 1) st = some st.candidates := by
  rw [genLoop, if_neg h]

/-- C3 (amended): when the catalog holds pairwise-distinct card ids, at
least 8 cards, and at least one card per required role,
getBestDeckCompletion on the empty starting list returns a candidate with
exactly 8 distinct ids and no missing required role.  (Without the
8-card amendment the generation loop never terminates, see the
counterexample.) -/
theorem getBestDeckCompletion_complete_claim (cat : List Card) (sq : Rat → Rat)
    (hid : (cat.map Card.id).Nodup) (hcat : 8 ≤ cat.length)
    (hroles : ∀ r ∈ REQUIRED_ROLES, ∃ c ∈ cat, r ∈ c.roles) :
    ∃ cand, getBestDeckCompletion cat sq [] noOptions = some cand ∧
      cand.cards.length = 8 ∧ cand.cards.Nodup ∧
      cand.score.coverage.missingRoles = [] := by
  obtain ⟨cand, hcand, h8, hnd, hmiss⟩ := generateSingleCompletion_complete cat sq none
    DEFAULT_SCORING_CONFIG hid hcat hroles
  refine ⟨cand, ?_, h8, hnd, hmiss⟩
  rw [getBestDeckCompletion, generateDeckCandidates]
  simp only [noOptions, Option.getD, getAllCards]
  rw [hcand]
  rw [genLoop_done cat sq [] cat none DEFAULT_SCORING_CONFIG 1 1 _ (by simp)]
  simp [List.mergeSort_singleton]

/-- Witness for C3 at the concrete nine-card catalog. -/
theorem getBestDeckCompletion_complete_claim_witness :
    ((optimizeBugCatalog.map Card.id).Nodup ∧ 8 ≤ optimizeBugCatalog.length ∧
      (∀ r ∈ REQUIRED_ROLES, ∃ c ∈ optimizeBugCatalog, r ∈ c.roles)) ∧
    (∃ cand, getBestDeckCompletion optimizeBugCatalog sqZero [] noOptions = some cand ∧
      cand.cards.length = 8 ∧ cand.cards.Nodup ∧
      cand.score.coverage.missingRoles = []) :=
  ⟨⟨by decide, by decide, by decide⟩,
   getBestDeckCompletion_complete_claim optimizeBugCatalog sqZero (by decide) (by decide)
     (by decide)⟩

/-- Five-card catalog with exactly one card per required role. -/
def fiveRoleCatalog : List Card :=
  [ troop "w" "W" 3 [.win_condition]
  , troop "s" "S" 3 [.small_spell]
  , troop "b" "B" 3 [.big_spell]
  , troop "a" "A" 3 [.air_targeting]
  , troop "t" "T" 3 [.tank_killer]
  ]

/-- On the five-card catalog the primary completion fails (fewer than 8
cards exist), no exclusion ever accumulates, and the guard never fires,
so the JS diversity loop repeats an identical iteration forever; the
fueled model reports this as `none` for every fuel. -/
theorem fiveRoleCatalog_generation_diverges :
    ∀ fuel, genLoop fiveRoleCatalog sqZero [] fiveRoleCatalog none DEFAULT_SCORING_CONFIG 1
      fuel { candidates := [], usedFirstCards := [] } = none := by
  apply genLoop_none_of_stuck
  · simp
  · with_unfolding_all rfl
  · intro h
    have : ((genExcludeCards { candidates := [], usedFirstCards := [] }).length : Rat) ≤
        (fiveRoleCatalog.length : Rat) * 0.5 :=
      of_decide_eq_true (by with_unfolding_all rfl)
    exact absurd h (not_lt.mpr this)

set_option maxRecDepth 400000 in
/-- Counterexample for C3: the five-card catalog has one card per
required role, yet getBestDeckCompletion on the empty list returns no
candidate — the generation loop can never build an 8-card deck and (per
fiveRoleCatalog_generation_diverges) never terminates in the JS
source. -/
theorem getBestDeckCompletion_small_catalog_counterexample :
    (∀ r ∈ REQUIRED_ROLES, ∃ c ∈ fiveRoleCatalog, r ∈ c.roles) ∧
    getBestDeckCompletion fiveRoleCatalog sqZero [] noOptions = none := by
  constructor
  · decide
  · have h : (getBestDeckCompletion fiveRoleCatalog sqZero [] noOptions).isSome = false :=
      of_decide_eq_true (by with_unfolding_all rfl)
    rw [← Option.not_isSome_iff_eq_none, h]
    simp

/-- Witness for C5 at a concrete one-card list. -/
theorem curveScore_formula_claim_witness :
    ([supportCard] : List Card) ≠ [] ∧
    (calculateCurveScore [supportCard] DEFAULT_SCORING_CONFIG).total =
      curveTotalSpec [supportCard] DEFAULT_SCORING_CONFIG :=
  ⟨by decide,
   ((curveScore_formula_claim [supportCard] DEFAULT_SCORING_CONFIG).1 (by decide)).1⟩

end ClashDeck
